import Mathlib

/-!
Verification development for the `ratatoist` terminal client.

The definitions below are shallow embeddings of the Rust source:

* `crates/ratatoist-tui/src/ui/dates.rs` — Gregorian civil-date conversion
  (Howard-Hinnant style `days_from_civil` / `civil_from_days`) and the
  date-string helpers built on them.  The Rust code computes on `i64`/`u64`;
  here machine integers are modelled as unbounded `Int` with Euclidean
  division (`Int.ediv`/`Int.emod`), which agrees with `u64` arithmetic on
  the in-range, non-negative intermediate values the code produces (the
  proofs establish the needed non-negativity bounds explicitly).

* `crates/ratatoist-core/src/api/models.rs`, `sync.rs` — the entity data
  model and sync protocol records.

* `crates/ratatoist-tui/src/app.rs` — the replica store (`apply_sync_delta`),
  the command engine (optimistic submission, reversal records,
  `revert_optimistic`, `apply_temp_id_mapping`, `drain_bg_results`), the
  derived selector (`visible_tasks` and its helpers) and project ordering
  (`sort_projects` / `collect_project_subtree`).

Rust's stable `sort_by`/`sort_by_key` is modelled by `List.insertionSort`
with the corresponding total preorder: both are stable sorts, and a stable
sort's output is uniquely determined by the comparator and the input order.
Recursive tree walks that recurse on parent/child id chains are modelled
with an explicit fuel argument (the Rust recursion terminates on exactly
the inputs where the fuel never runs out; all theorems below either supply
sufficient fuel or evaluate on concrete inputs where the walk plainly
terminates).
-/

namespace Ratatoist

/-! ## Dates (`ui/dates.rs`) -/

/-- `days_from_civil(y, m, d)` from `dates.rs`: days since 1970-01-01.
(`/` and `%` on `Int` are Euclidean division, matching Rust's
`div_euclid`/`rem_euclid` and, on the non-negative values involved,
`u64` division.) -/
def days_from_civil (y : Int) (m : Int) (d : Int) : Int :=
  let y' : Int := if m ≤ 2 then y - 1 else y
  let era : Int := y' / 400
  let yoe : Int := y' % 400
  let doy : Int := (153 * (if m > 2 then m - 3 else m + 9) + 2) / 5 + d - 1
  let doe : Int := yoe * 365 + yoe / 4 - yoe / 100 + doy
  era * 146097 + doe - 719468

/-- `civil_from_days(z)` from `dates.rs`: (year, month, day) for a day count. -/
def civil_from_days (z : Int) : Int × Int × Int :=
  let z' : Int := z + 719468
  let era : Int := z' / 146097
  let doe : Int := z' % 146097
  let yoe : Int := (doe - doe / 1460 + doe / 36524 - doe / 146096) / 365
  let y : Int := yoe + era * 400
  let doy : Int := doe - (365 * yoe + yoe / 4 - yoe / 100)
  let mp : Int := (5 * doy + 2) / 153
  let d : Int := doy - (153 * mp + 2) / 5 + 1
  let m : Int := if mp < 10 then mp + 3 else mp - 9
  (if m ≤ 2 then y + 1 else y, m, d)

set_option maxHeartbeats 4000000 in
/-- Key arithmetic fact behind the Hinnant algorithm: over one 400-year era,
the leap-day count computed from the day-of-era agrees (within 1) with the
leap-day count computed from the year-of-era. -/
theorem hinnant_leap_bounds (D : Int) (h0 : 0 ≤ D) (h1 : D < 146097) :
    0 ≤ D / 1460 - D / 36524 + D / 146096
      + (D - D / 1460 + D / 36524 - D / 146096) / 36500
      - (D - D / 1460 + D / 36524 - D / 146096) / 1460 ∧
    D / 1460 - D / 36524 + D / 146096
      + (D - D / 1460 + D / 36524 - D / 146096) / 36500
      - (D - D / 1460 + D / 36524 - D / 146096) / 1460 ≤ 1 := by
  obtain ⟨b, hb0, hb1, hbd⟩ : ∃ b : Int, 0 ≤ b ∧ b ≤ 100 ∧ D / 1460 = b :=
    ⟨D / 1460, by omega, by omega, rfl⟩
  interval_cases b <;>
    first
      | omega
      | (obtain ⟨c, hc0, hc1, hcd⟩ : ∃ c : Int, 0 ≤ c ∧ c ≤ 4 ∧ D / 36524 = c :=
          ⟨D / 36524, by omega, by omega, rfl⟩
         interval_cases c <;> omega)

/-- C10: the two Gregorian conversions are mutually inverse and
`civil_from_days` always yields a month in `1..12` and a day in `1..31`. -/
theorem civil_from_days_roundtrip (z : Int) :
    1 ≤ (civil_from_days z).2.1 ∧ (civil_from_days z).2.1 ≤ 12 ∧
    1 ≤ (civil_from_days z).2.2 ∧ (civil_from_days z).2.2 ≤ 31 ∧
    days_from_civil (civil_from_days z).1 (civil_from_days z).2.1
      (civil_from_days z).2.2 = z := by
  simp only [civil_from_days, days_from_civil]
  have h0 : 0 ≤ (z + 719468) % 146097 := Int.emod_nonneg _ (by norm_num)
  have h1 : (z + 719468) % 146097 < 146097 := Int.emod_lt_of_pos _ (by norm_num)
  set era : Int := (z + 719468) / 146097 with hera
  set doe : Int := (z + 719468) % 146097 with hdoe
  have hz : z = era * 146097 + doe - 719468 := by omega
  have hleap := hinnant_leap_bounds doe h0 h1
  set yoe : Int := (doe - doe / 1460 + doe / 36524 - doe / 146096) / 365 with hyoe
  have hyoe0 : 0 ≤ yoe := by omega
  have hyoe1 : yoe ≤ 399 := by omega
  have hc4 : yoe / 4 = (doe - doe / 1460 + doe / 36524 - doe / 146096) / 1460 := by omega
  have hc100 : yoe / 100 = (doe - doe / 1460 + doe / 36524 - doe / 146096) / 36500 := by
    omega
  set doy : Int := doe - (365 * yoe + yoe / 4 - yoe / 100) with hdoy
  have hdoy0 : 0 ≤ doy := by omega
  have hdoy1 : doy ≤ 365 := by omega
  set mp : Int := (5 * doy + 2) / 153 with hmp
  have hmp0 : 0 ≤ mp := by omega
  have hmp1 : mp ≤ 11 := by omega
  set d : Int := doy - (153 * mp + 2) / 5 + 1 with hd
  have hd1 : 1 ≤ d := by omega
  have hd31 : d ≤ 31 := by omega
  clear_value era doe yoe doy mp d
  clear hera hdoe hyoe hleap hc4 hc100 hmp h0 h1
  rcases lt_or_ge mp 10 with hlt | hge
  · rw [if_pos hlt]
    have hm2 : ¬ (mp + 3 ≤ 2) := by omega
    have hm2' : mp + 3 > 2 := by omega
    rw [if_neg hm2, if_neg hm2, if_pos hm2']
    refine ⟨by omega, by omega, hd1, hd31, ?_⟩
    have e1 : (yoe + era * 400) / 400 = era := by omega
    have e2 : (yoe + era * 400) % 400 = yoe := by omega
    rw [show mp + 3 - 3 = mp by ring, e1, e2]
    omega
  · rw [if_neg (by omega : ¬ mp < 10)]
    have hm2 : mp - 9 ≤ 2 := by omega
    rw [if_pos hm2, if_pos hm2, if_neg (by omega : ¬ mp - 9 > 2)]
    refine ⟨by omega, by omega, hd1, hd31, ?_⟩
    have e0 : yoe + era * 400 + 1 - 1 = yoe + era * 400 := by ring
    rw [e0]
    have e1 : (yoe + era * 400) / 400 = era := by omega
    have e2 : (yoe + era * 400) % 400 = yoe := by omega
    rw [show mp - 9 + 9 = mp by ring, e1, e2]
    omega

/-! ## Date-string helpers (`ui/dates.rs`) -/

/-- Zero-padded decimal rendering (Rust `{:04}` / `{:02}` on the
non-negative values produced by `civil_from_days` for realistic dates). -/
def zeroPad (w : Nat) (n : Int) : String :=
  let s := toString n
  if s.length < w then String.mk (List.replicate (w - s.length) '0') ++ s else s

/-- `epoch_to_date(epoch)` from `dates.rs`: `epoch / 86400` then
`civil_from_days`, rendered `{y:04}-{m:02}-{d:02}`.  Rust `/` on `i64`
truncates toward zero, hence `Int.tdiv`. -/
def epoch_to_date (epoch : Int) : String :=
  let days := Int.tdiv epoch 86400
  let ymd := civil_from_days days
  zeroPad 4 ymd.1 ++ "-" ++ zeroPad 2 ymd.2.1 ++ "-" ++ zeroPad 2 ymd.2.2

/-- `today_str()` from `dates.rs`, with the wall clock (seconds since the
Unix epoch) passed explicitly. -/
def today_str (now : Int) : String := epoch_to_date now

/-- `offset_days_str(days)` from `dates.rs`, wall clock explicit. -/
def offset_days_str (now : Int) (days : Int) : String :=
  epoch_to_date (now + days * 86400)

/-! ## Data model (`api/models.rs`)

`serde_json::Value` payload fields that the client never inspects are
modelled as opaque `Option String`. -/

structure Due where
  date : String
  is_recurring : Bool
  timezone : Option String
  string : Option String
  datetime : Option String
  lang : Option String
deriving DecidableEq, Repr

instance : Inhabited Due :=
  ⟨{ date := "", is_recurring := false, timezone := none, string := none,
     datetime := none, lang := none }⟩

structure Task where
  id : String
  content : String
  description : String
  checked : Bool
  child_order : Int
  priority : Nat
  project_id : String
  section_id : Option String
  parent_id : Option String
  labels : List String
  due : Option Due
  deadline : Option String
  duration : Option String
  added_by_uid : Option String
  added_at : Option String
  responsible_uid : Option String
  assigned_by_uid : Option String
  note_count : Option Int
  user_id : Option String
  updated_at : Option String
  is_deleted : Bool
  completed_at : Option String
  completed_by_uid : Option String
  day_order : Option Int
  is_collapsed : Bool
deriving DecidableEq, Repr

/-- `Task::default()` (derived `Default` in Rust). -/
def Task.defaultTask : Task :=
  { id := "", content := "", description := "", checked := false,
    child_order := 0, priority := 0, project_id := "", section_id := none,
    parent_id := none, labels := [], due := none, deadline := none,
    duration := none, added_by_uid := none, added_at := none,
    responsible_uid := none, assigned_by_uid := none, note_count := none,
    user_id := none, updated_at := none, is_deleted := false,
    completed_at := none, completed_by_uid := none, day_order := none,
    is_collapsed := false }

structure Project where
  id : String
  name : String
  color : String
  parent_id : Option String
  child_order : Int
  is_shared : Bool
  is_favorite : Bool
  inbox_project : Option Bool
  is_archived : Option Bool
  is_deleted : Option Bool
  is_collapsed : Option Bool
  view_style : Option String
  created_at : Option String
  updated_at : Option String
  creator_uid : Option String
  role : Option String
  description : Option String
  workspace_id : Option String
  folder_id : Option String
deriving DecidableEq, Repr

/-- `Project::is_inbox`. -/
def Project.is_inbox (p : Project) : Bool := p.inbox_project.getD false

structure Label where
  id : String
  name : String
  color : String
  item_order : Option Int
  is_favorite : Bool
  is_deleted : Option Bool
deriving DecidableEq, Repr

structure Section where
  id : String
  project_id : String
  section_order : Option Int
  name : String
  is_archived : Option Bool
  is_deleted : Option Bool
  is_collapsed : Option Bool
  added_at : Option String
deriving DecidableEq, Repr

structure Comment where
  id : String
  content : String
  posted_at : Option String
  posted_by_uid : Option String
  project_id : Option String
  task_id : Option String
  item_id : Option String
  attachment : Option String
  is_deleted : Bool
  reactions : Option String
  uids_to_notify : Option (List String)
deriving DecidableEq, Repr

/-- `Comment::default()`. -/
def Comment.defaultComment : Comment :=
  { id := "", content := "", posted_at := none, posted_by_uid := none,
    project_id := none, task_id := none, item_id := none, attachment := none,
    is_deleted := false, reactions := none, uids_to_notify := none }

structure UserInfo where
  id : String
  full_name : Option String
  email : Option String
  websocket_url : Option String
deriving DecidableEq, Repr

structure Collaborator where
  id : String
  name : Option String
  email : Option String
deriving DecidableEq, Repr

structure Workspace where
  id : String
  name : String
  is_deleted : Bool
deriving DecidableEq, Repr

structure Folder where
  id : String
  name : String
  workspace_id : String
  child_order : Int
  is_deleted : Bool
deriving DecidableEq, Repr

/-! ## Sync protocol records (`api/sync.rs`) -/

/-- Minimal JSON scalar model: every command-argument object the client
builds (`serde_json::json!` in `app.rs`) is a flat object of scalars. -/
inductive JScalar where
  | str (s : String)
  | num (n : Int)
  | jbool (b : Bool)
deriving DecidableEq, Repr

structure SyncCommand where
  type : String
  temp_id : Option String
  uuid : String
  args : List (String × JScalar)
deriving DecidableEq, Repr

inductive SyncCommandResult where
  | ok (s : String)
  | err (error_code : Int) (error : String)
deriving DecidableEq, Repr

/-- `SyncCommandResult::is_err`. -/
def SyncCommandResult.is_err : SyncCommandResult → Bool
  | .ok _ => false
  | .err _ _ => true

/-- `SyncCommandResult::error_message`. -/
def SyncCommandResult.error_message : SyncCommandResult → Option String
  | .ok _ => none
  | .err _ e => some e

structure CollaboratorState where
  project_id : String
  user_id : String
  state : String
  is_deleted : Bool
deriving DecidableEq, Repr

structure SyncResponse where
  full_sync : Bool
  sync_token : String
  items : Option (List Task)
  projects : Option (List Project)
  sections : Option (List Section)
  labels : Option (List Label)
  notes : Option (List Comment)
  collaborators : Option (List Collaborator)
  workspaces : Option (List Workspace)
  folders : Option (List Folder)
  collaborator_states : Option (List CollaboratorState)
  user : Option UserInfo
  sync_status : List (String × SyncCommandResult)
  temp_id_mapping : List (String × String)
deriving DecidableEq, Repr

instance {ε α : Type} [DecidableEq ε] [DecidableEq α] : DecidableEq (Except ε α)
  | .ok a, .ok b =>
      if h : a = b then isTrue (by rw [h])
      else isFalse (fun hh => by cases hh; exact h rfl)
  | .error a, .error b =>
      if h : a = b then isTrue (by rw [h])
      else isFalse (fun hh => by cases hh; exact h rfl)
  | .ok _, .error _ => isFalse (fun hh => by cases hh)
  | .error _, .ok _ => isFalse (fun hh => by cases hh)

/-! ## App-level types (`crates/ratatoist-tui/src/app.rs`) -/

inductive TaskFilter where
  | Active
  | Done
  | Both
deriving DecidableEq, Repr

inductive DockItem where
  | DueOverdue
  | DueToday
  | DueWeek
  | Priority (p : Nat)
deriving DecidableEq, Repr

inductive SortMode where
  | Default
  | Priority
  | DueDate
  | Created
deriving DecidableEq, Repr

structure AppError where
  title : String
  message : String
  suggestion : Option String
  recoverable : Bool
deriving DecidableEq, Repr

structure UserRecord where
  id : String
  full_name : String
  email : String
  display : String
deriving DecidableEq, Repr

/-- `UserRecord::new`. -/
def UserRecord.new (id : String) (full_name : Option String) (email : Option String) :
    UserRecord :=
  let name := full_name.getD ""
  let mail := email.getD ""
  let display :=
    if !name.isEmpty && !mail.isEmpty then name ++ " - " ++ mail
    else if !name.isEmpty then name
    else if !mail.isEmpty then mail
    else id
  { id := id, full_name := name, email := mail, display := display }

/-- Reversal records for optimistic mutations (`OptimisticOp` in `app.rs`). -/
inductive OptimisticOp where
  | TaskAdded (temp_id : String)
  | TaskRemoved (snapshot : Task)
  | TaskUpdated (task_id : String) (before : Task)
  | CommentAdded (temp_id : String) (task_id : String)
  | ProjectUpdated (project_id : String) (before : Project)
deriving DecidableEq, Repr

structure TaskForm where
  content : String
  priority : Nat
  due_string : String
  project_id : String
  active_field : Nat
  editing : Bool
deriving DecidableEq, Repr

/-- The replica / coordinator state: the fields of `App` that the embedded
operations read or write.  Hash maps are modelled as association lists
(key order = insertion order, updates in place); hash sets as membership
lists.  Background effects that the real code spawns are recorded
explicitly: `inflight_batches` (command batches handed to a flush task),
`spawned_syncs` (count of incremental-sync spawns), `spawned_comment_fetches`
and `spawned_completed_fetches` (requested ids), and the persisted
`sync_state.json` content as `disk_sync_token`. -/
structure AppState where
  projects : List Project
  workspaces : List Workspace
  folders : List Folder
  tasks : List Task
  labels : List Label
  sections : List Section
  selected_project : Nat
  selected_task : Nat
  error : Option AppError
  collapsed : List String
  sort_mode : SortMode
  comments : List Comment
  detail_field : Nat
  task_form : Option TaskForm
  current_user_id : Option String
  user_names : List (String × UserRecord)
  task_filter : TaskFilter
  dock_filter : Option DockItem
  websocket_connected : Bool
  sync_token : String
  completed_cache : List (String × List Task)
  comments_by_task : List (String × List Comment)
  idle_timeout_secs : Nat
  ephemeral : Bool
  last_sync_at : Option Int
  current_user_name : Option String
  last_activity : Int
  pending_ws_sync : Bool
  comments_fetch_seq : Nat
  websocket_url : Option String
  pending_commands : List SyncCommand
  temp_id_pending : List (String × OptimisticOp)
  disk_sync_token : String
  inflight_batches : List (List SyncCommand)
  spawned_syncs : Nat
  spawned_comment_fetches : List (String × Nat)
  spawned_completed_fetches : List String
deriving DecidableEq, Repr

/-- Background results drained by the coordinator (`BgResult` in `app.rs`).
`records`/`comments` carry `Except String` for the `Result` payloads. -/
inductive BgResult where
  | SyncDelta (resp : SyncResponse)
  | CommandResults (resp : SyncResponse)
  | CompletedTasks (project_id : String) (records : Except String (List Task))
  | WebSocketConnected
  | WebSocketEvent
  | WebSocketDisconnected
  | Comments (task_id : String) (comments : Except String (List Comment)) (fetch_seq : Nat)
deriving DecidableEq, Repr

/-! ## Association-list operations (modelling `HashMap`) -/

/-- Look up a key. -/
def assocFind? {β : Type} (m : List (String × β)) (k : String) : Option β :=
  (m.find? (fun kv => kv.1 == k)).map (·.2)

/-- Update the value at an existing key in place (no-op when absent). -/
def assocUpdate {β : Type} (m : List (String × β)) (k : String) (f : β → β) :
    List (String × β) :=
  m.map (fun kv => if kv.1 == k then (kv.1, f kv.2) else kv)

/-- `HashMap::insert`: replace in place when present, else append. -/
def assocSet {β : Type} (m : List (String × β)) (k : String) (v : β) :
    List (String × β) :=
  if m.any (fun kv => kv.1 == k) then assocUpdate m k (fun _ => v) else m ++ [(k, v)]

/-- `HashMap::remove`, returning the removed value and the remaining map. -/
def assocRemove {β : Type} (m : List (String × β)) (k : String) :
    Option β × List (String × β) :=
  (assocFind? m k, m.filter (fun kv => kv.1 != k))

/-! ## String ordering

Rust compares `String`s bytewise; on the ASCII date strings involved this
is the lexicographic order on the character list (modelled directly on
`String.data`, which the kernel can evaluate). -/

/-- Rust `<` on strings. -/
def strLt (a b : String) : Bool := decide (a.data < b.data)

/-- Rust `<=` on strings (total order, so `a <= b ↔ ¬ b < a`). -/
def strLe (a b : String) : Bool := !(strLt b a)

/-! ## Project ordering (`App::sort_projects`, `collect_project_subtree`)

Rust's stable `sort_by`/`sort_by_key` is modelled by `List.insertionSort`
with the matching total preorder. -/

/-- Pinned (inbox or favorite) projects sort first. -/
def proj_pin (p : Project) : Nat := if p.is_inbox || p.is_favorite then 0 else 1

/-- The comparator of `collect_project_subtree`:
`b_pin.cmp(&a_pin).then(a.child_order.cmp(&b.child_order))`. -/
def projLe (a b : Project) : Prop :=
  proj_pin a < proj_pin b ∨ (proj_pin a = proj_pin b ∧ a.child_order ≤ b.child_order)

instance : DecidableRel projLe := fun a b => by
  unfold projLe; infer_instance

/-- `ws_folders.sort_by_key(|f| f.child_order)`. -/
def folderLe (a b : Folder) : Prop := a.child_order ≤ b.child_order

instance : DecidableRel folderLe := fun a b => by
  unfold folderLe; infer_instance

/-- `collect_project_subtree(parent_id, all, out)`: push each child (sorted
pinned-first then by child order), recursing into its subtree.  The Rust
recursion is modelled with fuel; callers pass `all.length + 1`, which the
development shows is enough whenever the walk terminates. -/
def collect_project_subtree (all : List Project) :
    Nat → Option String → List Project
  | 0, _ => []
  | fuel + 1, parent =>
      let children :=
        List.insertionSort projLe (all.filter (fun p => p.parent_id == parent))
      children.flatMap (fun c => c :: collect_project_subtree all fuel (some c.id))

/-- `App::sort_projects`: personal bucket first, then per workspace the
folderless bucket and each folder bucket (folders by child order), then any
project not reached, preserving the selected project by id. -/
def sort_projects (s : AppState) : AppState :=
  let selected_id := (s.projects.get? s.selected_project).map (·.id)
  let source := s.projects
  let personal := source.filter (fun p => p.workspace_id == none)
  let ordered := collect_project_subtree personal (personal.length + 1) none
  let ordered := s.workspaces.foldl (fun acc ws =>
    let ws_projects := source.filter (fun p => p.workspace_id == some ws.id)
    if ws_projects.isEmpty then acc
    else
      let no_folder := ws_projects.filter (fun p => p.folder_id == none)
      let acc := acc ++ collect_project_subtree no_folder (no_folder.length + 1) none
      let ws_folders :=
        List.insertionSort folderLe (s.folders.filter (fun f => f.workspace_id == ws.id))
      ws_folders.foldl (fun acc f =>
        let in_folder := ws_projects.filter (fun p => p.folder_id == some f.id)
        acc ++ collect_project_subtree in_folder (in_folder.length + 1) none) acc) ordered
  let ordered := ordered ++ source.filter (fun p => !(ordered.any (fun q => q.id == p.id)))
  let selected :=
    match selected_id with
    | some id =>
        match ordered.findIdx? (fun p => p.id == id) with
        | some pos => pos
        | none => s.selected_project
    | none => s.selected_project
  { s with projects := ordered, selected_project := selected }

/-! ## Derived selector (`App::visible_tasks` and helpers) -/

/-- `App::is_descendant_of`: walk `task_id`'s parent chain looking for
`ancestor_id` (fuel models the Rust loop). -/
def is_descendant_of (tasks : List Task) :
    Nat → String → String → Bool
  | 0, _, _ => false
  | fuel + 1, task_id, ancestor_id =>
      match (tasks.find? (fun t => t.id == task_id)).bind (·.parent_id) with
      | none => false
      | some pid =>
          if pid == ancestor_id then true
          else is_descendant_of tasks fuel pid ancestor_id

/-- `App::has_completed_descendant`. -/
def has_completed_descendant (tasks : List Task) (task_id : String) : Bool :=
  tasks.any (fun t =>
    !t.is_deleted && t.checked && is_descendant_of tasks (tasks.length + 1) t.id task_id)

/-- `tasks.sort_by_key(|t| t.child_order)` comparator. -/
def taskChildLe (a b : Task) : Prop := a.child_order ≤ b.child_order

instance : DecidableRel taskChildLe := fun a b => by
  unfold taskChildLe; infer_instance

/-- `App::collect_visible_children` (fuel models the recursion depth). -/
def collect_visible_children (tasks : List Task) (collapsed : List String) :
    Nat → String → List Task
  | 0, _ => []
  | fuel + 1, parent_id =>
      let children := List.insertionSort taskChildLe
        (tasks.filter (fun t => !t.is_deleted && t.parent_id == some parent_id))
      children.flatMap (fun c =>
        c :: (if collapsed.contains c.id then []
              else collect_visible_children tasks collapsed fuel c.id))

/-- `App::collect_done_children`. -/
def collect_done_children (tasks : List Task) (collapsed : List String) :
    Nat → String → List Task
  | 0, _ => []
  | fuel + 1, parent_id =>
      let children := List.insertionSort taskChildLe
        (tasks.filter (fun t =>
          !t.is_deleted && t.parent_id == some parent_id &&
            (t.checked || has_completed_descendant tasks t.id)))
      children.flatMap (fun c =>
        c :: (if collapsed.contains c.id then []
              else collect_done_children tasks collapsed fuel c.id))

/-- `App::collect_cached_children` (within the completed cache; no collapse
check, matching the source). -/
def collect_cached_children (cached : List Task) :
    Nat → String → List Task
  | 0, _ => []
  | fuel + 1, parent_id =>
      let children := List.insertionSort taskChildLe
        (cached.filter (fun t => t.parent_id == some parent_id))
      children.flatMap (fun c => c :: collect_cached_children cached fuel c.id)

/-- `App::append_cached_completed`: append the cached completed tasks for
`project_id`, inserting an active parent as a context row for a cached root
whose parent is absent from the cache and not already shown. -/
def append_cached_completed (s : AppState) (project_id : String)
    (result : List Task) : List Task :=
  match assocFind? s.completed_cache project_id with
  | none => result
  | some cached =>
      if cached.isEmpty then result
      else
        let already_shown := result.map (·.id)
        let cached_ids := cached.map (·.id)
        let roots := List.insertionSort taskChildLe
          (cached.filter (fun t =>
            match t.parent_id with
            | none => true
            | some pid => !cached_ids.contains pid))
        roots.foldl (fun acc root =>
          let acc :=
            match root.parent_id with
            | some pid =>
                if already_shown.contains pid then acc
                else
                  match s.tasks.find? (fun t => t.id == pid && !t.is_deleted) with
                  | some parent => acc ++ [parent]
                  | none => acc
            | none => acc
          (acc ++ [root]) ++ collect_cached_children cached (cached.length + 1) root.id)
          result

/-- Section-order key used by the Default sort:
`section_order` of the task's section, `i32::MIN` when unknown. -/
def section_order_key (sections : List Section) (sid : Option String) : Int :=
  match sid with
  | none => -(2 ^ 31)
  | some id =>
      match sections.find? (fun sc => sc.id == id) with
      | none => -(2 ^ 31)
      | some sc => sc.section_order.getD (-(2 ^ 31))

/-- Default-sort comparator (dock off): section order, then child order. -/
def taskDefaultLe (sections : List Section) (a b : Task) : Prop :=
  section_order_key sections a.section_id < section_order_key sections b.section_id ∨
    (section_order_key sections a.section_id = section_order_key sections b.section_id ∧
      a.child_order ≤ b.child_order)

instance (sections : List Section) : DecidableRel (taskDefaultLe sections) := fun a b => by
  unfold taskDefaultLe; infer_instance

/-- Priority-sort comparator: `b.priority.cmp(&a.priority)` (descending). -/
def taskPriorityLe (a b : Task) : Prop := b.priority ≤ a.priority

instance : DecidableRel taskPriorityLe := fun a b => by
  unfold taskPriorityLe; infer_instance

/-- Due-date key: the due date string, `"9999"` when absent. -/
def task_due_key (t : Task) : String :=
  match t.due with
  | some d => d.date
  | none => "9999"

/-- Due-date comparator (ascending, missing dues last). -/
def taskDueLe (a b : Task) : Prop := strLe (task_due_key a) (task_due_key b) = true

instance : DecidableRel taskDueLe := fun a b => by
  unfold taskDueLe; infer_instance

/-- Created comparator: `b_at.cmp(a_at)` on `added_at.unwrap_or("")`
(descending). -/
def taskCreatedLe (a b : Task) : Prop :=
  strLe (b.added_at.getD "") (a.added_at.getD "") = true

instance : DecidableRel taskCreatedLe := fun a b => by
  unfold taskCreatedLe; infer_instance

/-- The dock-filter predicate of `App::visible_tasks`. -/
def dock_pred (today week_end : String) (dock : DockItem) (t : Task) : Bool :=
  match dock with
  | .DueOverdue => (t.due.any (fun d => strLt d.date today)) && !t.checked
  | .DueToday => t.due.any (fun d => d.date == today)
  | .DueWeek => t.due.any (fun d => strLe today d.date && strLe d.date week_end)
  | .Priority p => t.priority == p && !t.checked

/-- The top-level filter of `App::visible_tasks`. -/
def visible_top_pred (s : AppState) (today week_end : String)
    (current_project_id : Option String) (t : Task) : Bool :=
  if t.is_deleted || t.parent_id.isSome then false
  else
    match s.dock_filter with
    | some dock => dock_pred today week_end dock t
    | none =>
        (some t.project_id == current_project_id) &&
          (match s.task_filter with
           | .Active => !t.checked
           | .Done => t.checked || has_completed_descendant s.tasks t.id
           | .Both => true)

/-- `App::visible_tasks` (wall clock passed explicitly; `today_str` /
`offset_days_str(7)` are computed exactly as the source does). -/
def visible_tasks (now : Int) (s : AppState) : List Task :=
  let today := today_str now
  let week_end := offset_days_str now 7
  let current_project_id := (s.projects.get? s.selected_project).map (·.id)
  let top_level := s.tasks.filter (visible_top_pred s today week_end current_project_id)
  let top_level :=
    match s.sort_mode with
    | .Default =>
        if s.dock_filter.isNone then
          List.insertionSort (taskDefaultLe s.sections) top_level
        else
          List.insertionSort taskChildLe top_level
    | .Priority => List.insertionSort taskPriorityLe top_level
    | .DueDate => List.insertionSort taskDueLe top_level
    | .Created => List.insertionSort taskCreatedLe top_level
  if s.dock_filter.isSome then top_level
  else
    let result := top_level.flatMap (fun t =>
      t :: (if s.collapsed.contains t.id then []
            else if s.task_filter == TaskFilter.Done then
              collect_done_children s.tasks s.collapsed (s.tasks.length + 1) t.id
            else
              collect_visible_children s.tasks s.collapsed (s.tasks.length + 1) t.id))
    if s.task_filter == TaskFilter.Done || s.task_filter == TaskFilter.Both then
      match (s.projects.get? s.selected_project).map (·.id) with
      | some pid => append_cached_completed s pid result
      | none => result
    else result

/-- `App::selected_task` (the selected row of the derived view). -/
def selected_task? (now : Int) (s : AppState) : Option Task :=
  (visible_tasks now s).get? s.selected_task

/-! ## Delta merge (`App::apply_sync_delta`) -/

/-- Replace the first element satisfying `p` by `d`
(`iter_mut().find(..)` then `*e = item`). -/
def replaceFirstBy {α : Type} (p : α → Bool) (d : α) : List α → List α
  | [] => []
  | x :: rest => if p x then d :: rest else x :: replaceFirstBy p d rest

/-- Mutate the first element satisfying `p`
(`iter_mut().find(..)` then a field assignment). -/
def set_first_by {α : Type} (p : α → Bool) (f : α → α) : List α → List α
  | [] => []
  | x :: rest => if p x then f x :: rest else x :: set_first_by p f rest

/-- One record of an incremental delta: tombstone → remove every entity of
that id; existing id → replace in place; otherwise append. -/
def upsert_entity {α : Type} (getId : α → String) (isDel : α → Bool)
    (xs : List α) (d : α) : List α :=
  if isDel d then xs.filter (fun e => getId e != getId d)
  else if xs.any (fun e => getId e == getId d) then
    replaceFirstBy (fun e => getId e == getId d) d xs
  else xs ++ [d]

/-- Fold a delta list over a collection. -/
def apply_upserts {α : Type} (getId : α → String) (isDel : α → Bool)
    (xs : List α) (ds : List α) : List α :=
  ds.foldl (upsert_entity getId isDel) xs

/-- A comment's bucket key:
`note.item_id.clone().or_else(|| note.task_id.clone()).unwrap_or_default()`. -/
def noteTid (n : Comment) : String :=
  match n.item_id with
  | some tid => tid
  | none => n.task_id.getD ""

/-- Full-sync rebuild of `comments_by_task`:
`entry(tid).or_default().push(note)` for each live note. -/
def build_comment_buckets (notes : List Comment) : List (String × List Comment) :=
  notes.foldl (fun m note =>
    if note.is_deleted then m
    else
      let tid := noteTid note
      if m.any (fun kv => kv.1 == tid) then assocUpdate m tid (· ++ [note])
      else m ++ [(tid, [note])]) []

/-- Delta merge of one note into `comments_by_task`. -/
def apply_note (m : List (String × List Comment)) (note : Comment) :
    List (String × List Comment) :=
  let tid := noteTid note
  if note.is_deleted then
    if (assocFind? m tid).isSome then
      assocUpdate m tid (·.filter (fun c => c.id != note.id))
    else m
  else
    match assocFind? m tid with
    | some list =>
        if list.any (fun c => c.id == note.id) then
          assocUpdate m tid (replaceFirstBy (fun c => c.id == note.id) note)
        else assocUpdate m tid (· ++ [note])
    | none => m ++ [(tid, [note])]

/-- `App::save_sync_token` (skipped in ephemeral mode). -/
def save_sync_token (s : AppState) : AppState :=
  if s.ephemeral then s else { s with disk_sync_token := s.sync_token }

/-- `if let Some(x) = o { f(state, x) }` — the per-entity-kind guard used
throughout `App::apply_sync_delta`. -/
def apply_opt {β : Type} (o : Option β) (f : AppState → β → AppState)
    (s : AppState) : AppState :=
  match o with
  | some x => f s x
  | none => s

/-- Full sync: replace projects with the non-tombstoned ones and re-sort. -/
def full_step_projects (s : AppState) (projects : List Project) : AppState :=
  sort_projects { s with
    projects := projects.filter (fun p => !(p.is_deleted.getD false)) }

/-- Full sync: replace tasks. -/
def full_step_items (s : AppState) (items : List Task) : AppState :=
  { s with tasks := items.filter (fun t => !t.is_deleted) }

/-- Full sync: replace labels. -/
def full_step_labels (s : AppState) (labels : List Label) : AppState :=
  { s with labels := labels.filter (fun l => !(l.is_deleted.getD false)) }

/-- Full sync: replace sections. -/
def full_step_sections (s : AppState) (sections : List Section) : AppState :=
  { s with sections := sections.filter (fun c => !(c.is_deleted.getD false)) }

/-- Full sync: rebuild the comment buckets. -/
def full_step_notes (s : AppState) (notes : List Comment) : AppState :=
  { s with comments_by_task := build_comment_buckets notes }

/-- Full sync: record unseen collaborators. -/
def full_step_collaborators (s : AppState) (collabs : List Collaborator) : AppState :=
  { s with user_names := collabs.foldl (fun un c =>
      if (assocFind? un c.id).isSome then un
      else un ++ [(c.id, UserRecord.new c.id c.name c.email)]) s.user_names }

/-- Full sync: replace workspaces. -/
def full_step_workspaces (s : AppState) (workspaces : List Workspace) : AppState :=
  { s with workspaces := workspaces.filter (fun w => !w.is_deleted) }

/-- Full sync: replace folders. -/
def full_step_folders (s : AppState) (folders : List Folder) : AppState :=
  { s with folders := folders.filter (fun f => !f.is_deleted) }

/-- Full sync: adopt the current user record. -/
def full_step_user (s : AppState) (user : UserInfo) : AppState :=
  let s := { s with
    current_user_id := some user.id,
    websocket_url := user.websocket_url }
  let s :=
    match user.full_name with
    | some name => { s with current_user_name := some name }
    | none => s
  if (assocFind? s.user_names user.id).isSome then s
  else { s with user_names :=
    s.user_names ++ [(user.id, UserRecord.new user.id user.full_name user.email)] }

/-- The `full_sync` branch of `App::apply_sync_delta`: each entity kind
present in the payload replaces the local collection (tombstones dropped),
in source order. -/
def apply_full_resp (s : AppState) (resp : SyncResponse) : AppState :=
  apply_opt resp.user full_step_user
    (apply_opt resp.folders full_step_folders
      (apply_opt resp.workspaces full_step_workspaces
        (apply_opt resp.collaborators full_step_collaborators
          (apply_opt resp.notes full_step_notes
            (apply_opt resp.sections full_step_sections
              (apply_opt resp.labels full_step_labels
                (apply_opt resp.items full_step_items
                  (apply_opt resp.projects full_step_projects s))))))))

/-- Incremental: upsert projects by id, then re-sort. -/
def delta_step_projects (s : AppState) (projects : List Project) : AppState :=
  let merged :=
    apply_upserts (·.id) (fun p => p.is_deleted.getD false) s.projects projects
  sort_projects { s with projects := merged }

/-- Incremental: upsert tasks by id. -/
def delta_step_items (s : AppState) (items : List Task) : AppState :=
  { s with tasks := apply_upserts (·.id) (·.is_deleted) s.tasks items }

/-- Incremental: upsert labels by id. -/
def delta_step_labels (s : AppState) (labels : List Label) : AppState :=
  { s with labels :=
    apply_upserts (·.id) (fun l => l.is_deleted.getD false) s.labels labels }

/-- Incremental: upsert sections by id. -/
def delta_step_sections (s : AppState) (sections : List Section) : AppState :=
  { s with sections :=
    apply_upserts (·.id) (fun c => c.is_deleted.getD false) s.sections sections }

/-- Incremental: merge notes into their buckets and refresh the open
detail view's mirror list when its task was touched. -/
def delta_step_notes (now : Int) (s : AppState) (notes : List Comment) : AppState :=
  let open_task_id := (selected_task? now s).map (·.id)
  let folded := notes.foldl (fun (acc : List (String × List Comment) × Option String) note =>
    let m := apply_note acc.1 note
    let affected :=
      if open_task_id == some (noteTid note) then some (noteTid note) else acc.2
    (m, affected)) (s.comments_by_task, none)
  let s := { s with comments_by_task := folded.1 }
  match folded.2 with
  | some tid =>
      match assocFind? s.comments_by_task tid with
      | some updated => { s with comments := updated }
      | none => s
  | none => s

/-- The incremental branch of `App::apply_sync_delta`: per-id upserts for
each entity kind present, in source order. -/
def apply_delta_resp (now : Int) (s : AppState) (resp : SyncResponse) : AppState :=
  apply_opt resp.notes (delta_step_notes now)
    (apply_opt resp.sections delta_step_sections
      (apply_opt resp.labels delta_step_labels
        (apply_opt resp.items delta_step_items
          (apply_opt resp.projects delta_step_projects s))))

/-- The selection clamp at the end of `App::apply_sync_delta`. -/
def clamp_selection (now : Int) (s : AppState) : AppState :=
  let visible_len := (visible_tasks now s).length
  if visible_len == 0 then { s with selected_task := 0 }
  else if s.selected_task ≥ visible_len then { s with selected_task := visible_len - 1 }
  else s

/-- `App::apply_sync_delta`.  Follows the source statement by statement;
the wall clock `now` is explicit (used for `Local::now()` and for the
`visible_tasks` cursor clamp). -/
def apply_sync_delta (now : Int) (s : AppState) (resp : SyncResponse) : AppState :=
  let s :=
    if resp.full_sync then apply_full_resp s resp
    else apply_delta_resp now s resp
  let s :=
    if !resp.sync_token.isEmpty then
      save_sync_token { s with sync_token := resp.sync_token }
    else s
  clamp_selection now { s with last_sync_at := some now }

/-! ## Command engine (`App` submission, reversal and reconciliation) -/

/-- `App::flush_commands`: hand the whole pending batch to a background
sync call (recorded in `inflight_batches`). -/
def flush_commands (s : AppState) : AppState :=
  if s.pending_commands.isEmpty then s
  else { s with
    pending_commands := [],
    inflight_batches := s.inflight_batches ++ [s.pending_commands] }

/-- `App::apply_temp_id_mapping`: rename the first task with the temp id,
and every mirror comment's `id` / `item_id`. -/
def apply_temp_id_mapping (s : AppState) (temp_id real_id : String) : AppState :=
  { s with
    tasks := set_first_by (fun t => t.id == temp_id)
      (fun t => { t with id := real_id }) s.tasks,
    comments := s.comments.map (fun c =>
      let c := if c.id == temp_id then { c with id := real_id } else c
      if c.item_id == some temp_id then { c with item_id := some real_id } else c) }

/-- `App::revert_optimistic`. -/
def revert_optimistic (now : Int) (s : AppState) (op : OptimisticOp) : AppState :=
  match op with
  | .TaskAdded temp_id =>
      { s with tasks := s.tasks.filter (fun t => t.id != temp_id) }
  | .TaskRemoved snapshot => { s with tasks := s.tasks ++ [snapshot] }
  | .TaskUpdated task_id before =>
      { s with tasks :=
        set_first_by (fun t => t.id == task_id) (fun _ => before) s.tasks }
  | .CommentAdded temp_id task_id =>
      let current := (selected_task? now s).map (·.id)
      if current == some task_id then
        { s with comments := s.comments.filter (fun c => c.id != temp_id) }
      else s
  | .ProjectUpdated project_id before =>
      let restored := set_first_by (fun p => p.id == project_id) (fun _ => before) s.projects
      sort_projects { s with projects := restored }

/-- `App::set_error` (the fallback branch of `parse_api_error`; the claims
never inspect a JSON-carrying error body). -/
def set_error (s : AppState) (raw : String) (context : String) : AppState :=
  let err : AppError :=
    { title := context ++ " failed", message := raw, suggestion := none,
      recoverable := true }
  { s with error := some err }

/-- `App::is_idle` (elapsed wall-clock seconds against the timeout). -/
def is_idle (now : Int) (s : AppState) : Bool :=
  s.idle_timeout_secs > 0 && now - s.last_activity ≥ (s.idle_timeout_secs : Int)

/-- `App::spawn_incremental_sync` (the spawn itself; the reply, if any,
arrives later as a `BgResult`). -/
def spawn_incremental_sync (s : AppState) : AppState :=
  { s with spawned_syncs := s.spawned_syncs + 1 }

/-- `App::spawn_comments_fetch`. -/
def spawn_comments_fetch (s : AppState) (task_id : String) : AppState :=
  { s with
    comments_fetch_seq := s.comments_fetch_seq + 1,
    spawned_comment_fetches :=
      s.spawned_comment_fetches ++ [(task_id, s.comments_fetch_seq + 1)] }

/-- One entry of the `sync_status` loop in `App::drain_bg_results`
(state plus the `refresh_comments_for` accumulator). -/
def drain_status_step (now : Int) (acc : AppState × Option String)
    (kv : String × SyncCommandResult) : AppState × Option String :=
  let s := acc.1
  let uuid := kv.1
  let status := kv.2
  if status.is_err then
    let removed := assocRemove s.temp_id_pending uuid
    let s := { s with temp_id_pending := removed.2 }
    let s :=
      match removed.1 with
      | some op => revert_optimistic now s op
      | none => s
    let msg := (status.error_message).getD "unknown error"
    let err : AppError :=
      { title := "Command failed", message := msg, suggestion := none,
        recoverable := true }
    ({ s with error := some err }, acc.2)
  else
    let removed := assocRemove s.temp_id_pending uuid
    let s := { s with temp_id_pending := removed.2 }
    match removed.1 with
    | some (.CommentAdded _ task_id) =>
        let current := (selected_task? now s).map (·.id)
        if current == some task_id then (s, some task_id) else (s, acc.2)
    | _ => (s, acc.2)

/-- One `BgResult` case of `App::drain_bg_results`. -/
def drain_step (now : Int) (s : AppState) (r : BgResult) : AppState :=
  match r with
  | .SyncDelta resp => apply_sync_delta now s resp
  | .CommandResults resp =>
      let folded := resp.sync_status.foldl (drain_status_step now) (s, none)
      let s := resp.temp_id_mapping.foldl
        (fun s kv => apply_temp_id_mapping s kv.1 kv.2) folded.1
      let s :=
        if !resp.sync_token.isEmpty then
          save_sync_token { s with sync_token := resp.sync_token }
        else s
      match folded.2 with
      | some tid => spawn_comments_fetch s tid
      | none => s
  | .CompletedTasks project_id records =>
      match records with
      | .ok r => { s with completed_cache := assocSet s.completed_cache project_id r }
      | .error e => set_error s e "Load completed tasks"
  | .WebSocketConnected => { s with websocket_connected := true }
  | .WebSocketEvent =>
      let s := { s with websocket_connected := true }
      if is_idle now s then { s with pending_ws_sync := true }
      else spawn_incremental_sync s
  | .WebSocketDisconnected => { s with websocket_connected := false }
  | .Comments task_id comments fetch_seq =>
      match comments with
      | .ok c =>
          let count : Int := c.length
          let counted := set_first_by (fun t => t.id == task_id)
            (fun t => { t with note_count := some count }) s.tasks
          let s := { s with tasks := counted }
          let s := { s with comments_by_task := assocSet s.comments_by_task task_id c }
          let current := (selected_task? now s).map (·.id)
          if current == some task_id && fetch_seq == s.comments_fetch_seq then
            { s with comments := c }
          else s
      | .error e => set_error s e "Load comments"

/-- The coordinator events relevant to the verified claims: a drained
background result, a network failure inside a spawned sync / flush call
(which sends nothing and touches no state), and a key press in `App::run`
at wall-clock time `t`. -/
inductive CoordEvent where
  | bg (r : BgResult)
  | sync_call_failed
  | flush_call_failed
  | key_activity (t : Int)
deriving DecidableEq, Repr

/-- One coordinator step.  For `key_activity`, mirrors the idle-drain logic
at the top of the key branch of `App::run` (the rest of key handling is
outside the claims' scope). -/
def coord_step (now : Int) (s : AppState) (e : CoordEvent) : AppState :=
  match e with
  | .bg r => drain_step now s r
  | .sync_call_failed => s
  | .flush_call_failed => s
  | .key_activity t =>
      let was_idle := is_idle t s
      let s := { s with last_activity := t }
      if was_idle && s.pending_ws_sync then
        spawn_incremental_sync { s with pending_ws_sync := false }
      else s

/-- `App::submit_task_form` (uuid and temp id from the global counter are
passed explicitly). -/
def submit_task_form (s : AppState) (temp_id uuid : String) : AppState :=
  match s.task_form with
  | none => s
  | some form =>
      if form.content.trim.isEmpty then { s with task_form := none }
      else
        let project_id := form.project_id
        let optimistic := { Task.defaultTask with
          id := temp_id, content := form.content, project_id := project_id,
          priority := form.priority }
        let args := [("content", JScalar.str form.content),
                     ("project_id", JScalar.str project_id)]
          ++ (if !form.due_string.isEmpty then
                [("due_string", JScalar.str form.due_string)] else [])
          ++ (if form.priority > 1 then [("priority", JScalar.num form.priority)] else [])
        let s := { s with
          task_form := none,
          tasks := s.tasks ++ [optimistic],
          temp_id_pending := assocSet s.temp_id_pending uuid (.TaskAdded temp_id),
          pending_commands := s.pending_commands ++
            [{ type := "item_add", temp_id := some temp_id, uuid := uuid, args := args }] }
        flush_commands s

/-- The selection clamp inside `App::complete_selected_task`. -/
def complete_clamp (now : Int) (s : AppState) : AppState :=
  let new_len := (visible_tasks now s).length
  if new_len > 0 && s.selected_task ≥ new_len then
    { s with selected_task := new_len - 1 }
  else s

/-- `App::complete_selected_task`. -/
def complete_selected_task (now : Int) (s : AppState) (uuid : String) : AppState :=
  match (visible_tasks now s).get? s.selected_task with
  | none => s
  | some task =>
      let task_id := task.id
      let was_checked := task.checked
      let is_recurring := (task.due.map (·.is_recurring)).getD false
      let before := s.tasks.find? (fun t => t.id == task_id)
      let flipped := set_first_by (fun t => t.id == task_id)
        (fun t => { t with checked := !was_checked }) s.tasks
      let s := complete_clamp now { s with tasks := flipped }
      let cmd_type :=
        if was_checked then "item_reopen"
        else if is_recurring then "item_complete"
        else "item_close"
      let s := { s with pending_commands := s.pending_commands ++
        [{ type := cmd_type, temp_id := none, uuid := uuid,
           args := [("id", JScalar.str task_id)] }] }
      let s :=
        match before with
        | some snapshot =>
            { s with temp_id_pending :=
              assocSet s.temp_id_pending uuid (.TaskUpdated task_id snapshot) }
        | none => s
      flush_commands s

/-- `App::submit_comment` (`now_rfc3339` is the formatted local timestamp). -/
def submit_comment (now : Int) (s : AppState) (content : String)
    (now_rfc3339 : String) (temp_id uuid : String) : AppState :=
  match selected_task? now s with
  | none => s
  | some task =>
      let task_id := task.id
      let optimistic := { Comment.defaultComment with
        id := temp_id, content := content, posted_at := some now_rfc3339,
        posted_by_uid := s.current_user_id, task_id := some task_id,
        item_id := some task_id }
      let s := { s with
        comments := s.comments ++ [optimistic],
        comments_fetch_seq := s.comments_fetch_seq + 1,
        temp_id_pending :=
          assocSet s.temp_id_pending uuid (.CommentAdded temp_id task_id),
        pending_commands := s.pending_commands ++
          [{ type := "note_add", temp_id := some temp_id, uuid := uuid,
             args := [("item_id", JScalar.str task_id),
                      ("content", JScalar.str content)] }] }
      flush_commands s

/-- `App::submit_field_edit` (detail fields: 0 = content, 2 = due string,
3 = description; anything else returns). -/
def submit_field_edit (now : Int) (s : AppState) (value : String)
    (uuid : String) : AppState :=
  match selected_task? now s with
  | none => s
  | some task =>
      let task_id := task.id
      let before := task
      let argsAndState : Option (List (String × JScalar) × AppState) :=
        if s.detail_field == 0 then
          let patched := set_first_by (fun t => t.id == task_id)
            (fun t => { t with content := value }) s.tasks
          some ([("id", JScalar.str task_id), ("content", JScalar.str value)],
            { s with tasks := patched })
        else if s.detail_field == 2 then
          some ([("id", JScalar.str task_id), ("due_string", JScalar.str value)], s)
        else if s.detail_field == 3 then
          let patched := set_first_by (fun t => t.id == task_id)
            (fun t => { t with description := value }) s.tasks
          some ([("id", JScalar.str task_id), ("description", JScalar.str value)],
            { s with tasks := patched })
        else none
      match argsAndState with
      | none => s
      | some (args, s) =>
          let s := { s with
            temp_id_pending :=
              assocSet s.temp_id_pending uuid (.TaskUpdated task_id before),
            pending_commands := s.pending_commands ++
              [{ type := "item_update", temp_id := none, uuid := uuid, args := args }] }
          flush_commands s

/-- `App::apply_priority`. -/
def apply_priority (now : Int) (s : AppState) (new_priority : Nat)
    (uuid : String) : AppState :=
  match selected_task? now s with
  | none => s
  | some task =>
      let task_id := task.id
      let before := task
      let old_priority := task.priority
      if old_priority == new_priority then s
      else
        let patched := set_first_by (fun t => t.id == task_id)
          (fun t => { t with priority := new_priority }) s.tasks
        let s := { s with tasks := patched }
        let s := { s with
          temp_id_pending :=
            assocSet s.temp_id_pending uuid (.TaskUpdated task_id before),
          pending_commands := s.pending_commands ++
            [{ type := "item_update", temp_id := none, uuid := uuid,
               args := [("id", JScalar.str task_id),
                        ("priority", JScalar.num new_priority)] }] }
        flush_commands s

/-- `App::star_selected_project`. -/
def star_selected_project (s : AppState) (uuid : String) : AppState :=
  match s.projects.get? s.selected_project with
  | none => s
  | some project =>
      let pid := project.id
      let before := project
      let new_fav := !project.is_favorite
      let starred := set_first_by (fun p => p.id == pid)
        (fun p => { p with is_favorite := new_fav }) s.projects
      let s := { s with projects := starred }
      let s := sort_projects s
      let s := { s with
        temp_id_pending :=
          assocSet s.temp_id_pending uuid (.ProjectUpdated pid before),
        pending_commands := s.pending_commands ++
          [{ type := "project_update", temp_id := none, uuid := uuid,
             args := [("id", JScalar.str pid), ("is_favorite", JScalar.jbool new_fav)] }] }
      flush_commands s

/-! ## Concrete fixtures (used by counterexamples and witnesses) -/

/-- An `App` fresh out of `App::new` (empty replica, token `"*"`). -/
def emptyState : AppState :=
  { projects := [], workspaces := [], folders := [], tasks := [], labels := [],
    sections := [], selected_project := 0, selected_task := 0, error := none,
    collapsed := [], sort_mode := .Default, comments := [], detail_field := 0,
    task_form := none, current_user_id := none, user_names := [],
    task_filter := .Active, dock_filter := none, websocket_connected := false,
    sync_token := "*", completed_cache := [], comments_by_task := [],
    idle_timeout_secs := 300, ephemeral := false, last_sync_at := none,
    current_user_name := none, last_activity := 0, pending_ws_sync := false,
    comments_fetch_seq := 0, websocket_url := none, pending_commands := [],
    temp_id_pending := [], disk_sync_token := "*", inflight_batches := [],
    spawned_syncs := 0, spawned_comment_fetches := [],
    spawned_completed_fetches := [] }

/-- A plain personal project with the given id/name/order. -/
def mkProject (id name : String) (order : Int) : Project :=
  { id := id, name := name, color := "", parent_id := none, child_order := order,
    is_shared := false, is_favorite := false, inbox_project := none,
    is_archived := none, is_deleted := none, is_collapsed := none,
    view_style := none, created_at := none, updated_at := none,
    creator_uid := none, role := none, description := none,
    workspace_id := none, folder_id := none }

/-- A top-level task with the given id/content/project. -/
def mkTask (id content pid : String) : Task :=
  { Task.defaultTask with id := id, content := content, project_id := pid,
                          priority := 1 }

/-- A due record carrying only a date. -/
def mkDue (date : String) : Due :=
  { date := date, is_recurring := false, timezone := none, string := none,
    datetime := none, lang := none }

/-- A sync reply with no payload. -/
def emptyResp : SyncResponse :=
  { full_sync := false, sync_token := "", items := none, projects := none,
    sections := none, labels := none, notes := none, collaborators := none,
    workspaces := none, folders := none, collaborator_states := none,
    user := none, sync_status := [], temp_id_mapping := [] }

/-! ## C5 — a task can appear twice in the derived view (code bug)

A task that is checked in the replica (completion leaves the row in
`tasks` with `checked = true`) and also present in the completed-task
cache for its project is emitted twice by `visible_tasks` under the Done
filter: once from the top-level walk and once by
`append_cached_completed`, which consults `already_shown` only for context
parents, never for the cached root itself. -/

/-- The C5 failing state: task `"X"` checked in the replica and cached as
completed for the selected project, Done filter active. -/
def dupState : AppState :=
  let x := { mkTask "X" "X" "p1" with checked := true }
  { emptyState with
      projects := [mkProject "p1" "P" 0],
      tasks := [x],
      completed_cache := [("p1", [x])],
      task_filter := .Done }

/-- C5: the code emits the id `"X"` twice in one derived view, violating
the claimed at-most-once invariant. -/
theorem visible_tasks_duplicate_id :
    ((visible_tasks 0 dupState).map (·.id)) = ["X", "X"] ∧
      ¬ ((visible_tasks 0 dupState).map (·.id)).Nodup := by
  constructor
  · decide
  · decide

/-! ## C9 — the Week dock filter window -/

/-- Reduce membership in `visible_tasks` under an active dock filter. -/
theorem visible_top_pred_week_iff (s : AppState) (today week_end : String)
    (cpid : Option String) (t : Task)
    (h : s.dock_filter = some DockItem.DueWeek) :
    (visible_top_pred s today week_end cpid t = true ↔
      (t.is_deleted = false ∧ t.parent_id = none ∧
        ∃ d, t.due = some d ∧ strLe today d.date = true ∧
          strLe d.date week_end = true)) := by
  unfold visible_top_pred dock_pred
  rw [h]
  cases hdel : t.is_deleted <;> cases hpar : t.parent_id <;> cases hdue : t.due <;>
    simp [hdel, hpar, hdue]

/-- C9 (amended): with the Week dock filter active, the selector returns
exactly the non-deleted parentless tasks whose due date `d` satisfies
`today ≤ d ≤ today + 7` — the code computes the window end as
`offset_days_str(7)`, so a task due exactly seven days from today is
included. -/
theorem visible_tasks_week_mem (now : Int) (s : AppState)
    (h : s.dock_filter = some DockItem.DueWeek) (t : Task) :
    t ∈ visible_tasks now s ↔
      (t ∈ s.tasks ∧ t.is_deleted = false ∧ t.parent_id = none ∧
        ∃ d, t.due = some d ∧ strLe (today_str now) d.date = true ∧
          strLe d.date (offset_days_str now 7) = true) := by
  unfold visible_tasks
  rw [h]
  have hmem : ∀ (r : Task → Task → Prop) [DecidableRel r] (l : List Task),
      t ∈ List.insertionSort r l ↔ t ∈ l :=
    fun r _ l => (List.perm_insertionSort r l).mem_iff
  cases hm : s.sort_mode <;>
    simp only [hm, Option.isNone_some, Option.isSome_some, if_true, if_false,
      Bool.false_eq_true, ite_true, ite_false, hmem, List.mem_filter] <;>
    exact and_congr_right (fun _ =>
      visible_top_pred_week_iff s _ _ _ t h)

/-- The C9 fixture: one task due `"1970-01-08"`, exactly seven days after
`today_str 0 = "1970-01-01"`, Week dock filter active. -/
def weekState : AppState :=
  { emptyState with
      projects := [mkProject "p1" "P" 0],
      tasks := [{ mkTask "w" "w" "p1" with due := some (mkDue "1970-01-08") }],
      dock_filter := some .DueWeek }

/-- C9 counterexample: the claim's window `today ≤ d ≤ today + 6` is wrong
on the code — the task due `today + 7` (`"1970-01-08"`) is in the Week
view even though `offset_days_str 0 6 = "1970-01-07"` is before it. -/
theorem week_filter_includes_day_seven :
    ¬ (∀ t ∈ visible_tasks 0 weekState,
        ∃ d, t.due = some d ∧ strLe (today_str 0) d.date = true ∧
          strLe d.date (offset_days_str 0 6) = true) := by
  decide

/-- C9 witness: `visible_tasks_week_mem` evaluated on `weekState`. -/
theorem visible_tasks_week_mem_witness :
    { mkTask "w" "w" "p1" with due := some (mkDue "1970-01-08") }
      ∈ visible_tasks 0 weekState :=
  (visible_tasks_week_mem 0 weekState rfl _).mpr
    ⟨by decide, by decide, by decide, mkDue "1970-01-08", by decide, by decide,
     by decide⟩

/-! ## C8 — completing / reopening a task -/

theorem set_first_by_map {α β : Type} (p : α → Bool) (f : α → α) (g : α → β)
    (hp : ∀ x, g (f x) = g x) :
    ∀ l : List α, (set_first_by p f l).map g = l.map g := by
  intro l
  induction l with
  | nil => rfl
  | cons x rest ih =>
      unfold set_first_by
      by_cases hx : p x
      · simp [hx, hp]
      · simp [hx, ih]

theorem set_first_by_length {α : Type} (p : α → Bool) (f : α → α)
    (l : List α) : (set_first_by p f l).length = l.length := by
  induction l with
  | nil => rfl
  | cons x rest ih =>
      unfold set_first_by
      by_cases hx : p x <;> simp [hx, ih]

theorem isEmpty_append_singleton {α : Type} (xs : List α) (x : α) :
    (xs ++ [x]).isEmpty = false := by
  cases xs <;> rfl

@[simp] theorem complete_clamp_tasks (now : Int) (s : AppState) :
    (complete_clamp now s).tasks = s.tasks := by
  unfold complete_clamp; dsimp only; split <;> rfl

@[simp] theorem complete_clamp_pending (now : Int) (s : AppState) :
    (complete_clamp now s).pending_commands = s.pending_commands := by
  unfold complete_clamp; dsimp only; split <;> rfl

@[simp] theorem complete_clamp_inflight (now : Int) (s : AppState) :
    (complete_clamp now s).inflight_batches = s.inflight_batches := by
  unfold complete_clamp; dsimp only; split <;> rfl

@[simp] theorem complete_clamp_temp_pending (now : Int) (s : AppState) :
    (complete_clamp now s).temp_id_pending = s.temp_id_pending := by
  unfold complete_clamp; dsimp only; split <;> rfl

/-- C8: acting on the selected task flips only its `checked` flag in the
replica — its due date is untouched, no task is removed — and the flushed
command is `item_reopen` when it was checked, else `item_complete` when its
due is recurring and `item_close` otherwise. -/
theorem complete_selected_task_spec (now : Int) (s : AppState) (uuid : String)
    (t : Task) (hv : (visible_tasks now s).get? s.selected_task = some t) :
    (complete_selected_task now s uuid).tasks =
        set_first_by (fun u => u.id == t.id)
          (fun u => { u with checked := !t.checked }) s.tasks ∧
    ((complete_selected_task now s uuid).tasks.map (·.due)) =
        (s.tasks.map (·.due)) ∧
    ((complete_selected_task now s uuid).tasks.map (·.id)) =
        (s.tasks.map (·.id)) ∧
    (complete_selected_task now s uuid).tasks.length = s.tasks.length ∧
    (complete_selected_task now s uuid).pending_commands = [] ∧
    (complete_selected_task now s uuid).inflight_batches =
      s.inflight_batches ++ [s.pending_commands ++
        [{ type :=
             if t.checked then "item_reopen"
             else if (t.due.map (·.is_recurring)).getD false then "item_complete"
             else "item_close",
           temp_id := none, uuid := uuid,
           args := [("id", JScalar.str t.id)] }]] := by
  unfold complete_selected_task
  rw [hv]
  rcases hfind : List.find? (fun u => u.id == t.id) s.tasks with _ | snap <;>
    simp only [hfind] <;>
    refine ⟨?_, ?_, ?_, ?_, ?_, ?_⟩ <;>
      simp [flush_commands, isEmpty_append_singleton,
        complete_clamp_tasks, complete_clamp_pending,
        complete_clamp_inflight, complete_clamp_temp_pending,
        set_first_by_map, set_first_by_length]

/-- The C8 fixture: one unchecked recurring task selected. -/
def recurringState : AppState :=
  { emptyState with
      projects := [mkProject "p1" "P" 0],
      tasks := [{ mkTask "r" "R" "p1" with
        due := some { mkDue "1970-01-01" with is_recurring := true } }] }

/-- C8 witness: completing the recurring fixture task flips `checked` and
flushes exactly one `item_complete` command. -/
theorem complete_selected_task_spec_witness :
    (complete_selected_task 0 recurringState "U8").tasks =
        set_first_by (fun u => u.id == "r")
          (fun u => { u with checked := !false }) recurringState.tasks ∧
    (complete_selected_task 0 recurringState "U8").inflight_batches =
      [[{ type := "item_complete", temp_id := none, uuid := "U8",
          args := [("id", JScalar.str "r")] }]] := by
  have h := complete_selected_task_spec 0 recurringState "U8"
    ({ mkTask "r" "R" "p1" with
        due := some { mkDue "1970-01-01" with is_recurring := true } })
    (by decide)
  exact ⟨h.1, by rw [h.2.2.2.2.2]; rfl⟩

/-! ## C3 — the sync token is advanced only by applied replies -/

/-- `s'` agrees with `s` on the in-memory token, the persisted token and
the ephemeral flag. -/
def TokenFrame (s s' : AppState) : Prop :=
  s'.sync_token = s.sync_token ∧ s'.disk_sync_token = s.disk_sync_token ∧
    s'.ephemeral = s.ephemeral

theorem TokenFrame.refl (s : AppState) : TokenFrame s s := ⟨rfl, rfl, rfl⟩

theorem TokenFrame.trans {a b c : AppState} (h1 : TokenFrame a b)
    (h2 : TokenFrame b c) : TokenFrame a c :=
  ⟨h2.1.trans h1.1, h2.2.1.trans h1.2.1, h2.2.2.trans h1.2.2⟩

theorem sort_projects_frame (s : AppState) : TokenFrame s (sort_projects s) := by
  unfold sort_projects
  exact ⟨rfl, rfl, rfl⟩

theorem clamp_selection_frame (now : Int) (s : AppState) :
    TokenFrame s (clamp_selection now s) := by
  unfold clamp_selection
  dsimp only
  split
  · exact ⟨rfl, rfl, rfl⟩
  · split <;> exact ⟨rfl, rfl, rfl⟩

theorem apply_opt_frame {β : Type} (o : Option β) (f : AppState → β → AppState)
    (s : AppState) (hf : ∀ s x, TokenFrame s (f s x)) :
    TokenFrame s (apply_opt o f s) := by
  cases o
  · exact TokenFrame.refl _
  · exact hf _ _

theorem full_step_user_frame (s : AppState) (u : UserInfo) :
    TokenFrame s (full_step_user s u) := by
  unfold full_step_user
  dsimp only
  split <;> split <;> exact ⟨rfl, rfl, rfl⟩

theorem delta_step_notes_frame (now : Int) (s : AppState) (notes : List Comment) :
    TokenFrame s (delta_step_notes now s notes) := by
  unfold delta_step_notes
  dsimp only
  repeat' split
  all_goals exact ⟨rfl, rfl, rfl⟩

theorem apply_full_resp_frame (s : AppState) (resp : SyncResponse) :
    TokenFrame s (apply_full_resp s resp) := by
  unfold apply_full_resp
  refine TokenFrame.trans ?_ (apply_opt_frame _ _ _ full_step_user_frame)
  refine TokenFrame.trans ?_ (apply_opt_frame _ _ _ (fun s x => ⟨rfl, rfl, rfl⟩))
  refine TokenFrame.trans ?_ (apply_opt_frame _ _ _ (fun s x => ⟨rfl, rfl, rfl⟩))
  refine TokenFrame.trans ?_ (apply_opt_frame _ _ _ (fun s x => ⟨rfl, rfl, rfl⟩))
  refine TokenFrame.trans ?_ (apply_opt_frame _ _ _ (fun s x => ⟨rfl, rfl, rfl⟩))
  refine TokenFrame.trans ?_ (apply_opt_frame _ _ _ (fun s x => ⟨rfl, rfl, rfl⟩))
  refine TokenFrame.trans ?_ (apply_opt_frame _ _ _ (fun s x => ⟨rfl, rfl, rfl⟩))
  refine TokenFrame.trans ?_ (apply_opt_frame _ _ _ (fun s x => ⟨rfl, rfl, rfl⟩))
  exact apply_opt_frame _ _ _ (fun s x => sort_projects_frame _)

theorem apply_delta_resp_frame (now : Int) (s : AppState) (resp : SyncResponse) :
    TokenFrame s (apply_delta_resp now s resp) := by
  unfold apply_delta_resp
  refine TokenFrame.trans ?_ (apply_opt_frame _ _ _ (delta_step_notes_frame now))
  refine TokenFrame.trans ?_ (apply_opt_frame _ _ _ (fun s x => ⟨rfl, rfl, rfl⟩))
  refine TokenFrame.trans ?_ (apply_opt_frame _ _ _ (fun s x => ⟨rfl, rfl, rfl⟩))
  refine TokenFrame.trans ?_ (apply_opt_frame _ _ _ (fun s x => ⟨rfl, rfl, rfl⟩))
  exact apply_opt_frame _ _ _ (fun s x => sort_projects_frame _)

theorem apply_temp_id_mapping_frame (s : AppState) (a b : String) :
    TokenFrame s (apply_temp_id_mapping s a b) := ⟨rfl, rfl, rfl⟩

theorem revert_optimistic_frame (now : Int) (s : AppState) (op : OptimisticOp) :
    TokenFrame s (revert_optimistic now s op) := by
  unfold revert_optimistic
  cases op <;> dsimp only
  case TaskAdded => exact ⟨rfl, rfl, rfl⟩
  case TaskRemoved => exact ⟨rfl, rfl, rfl⟩
  case TaskUpdated => exact ⟨rfl, rfl, rfl⟩
  case CommentAdded =>
      split <;> exact ⟨rfl, rfl, rfl⟩
  case ProjectUpdated => exact sort_projects_frame _

theorem drain_status_step_frame (now : Int) (acc : AppState × Option String)
    (kv : String × SyncCommandResult) :
    TokenFrame acc.1 (drain_status_step now acc kv).1 := by
  unfold drain_status_step
  dsimp only
  repeat' split
  all_goals
    first
      | exact revert_optimistic_frame now _ _
      | exact ⟨rfl, rfl, rfl⟩

theorem drain_status_fold_frame (now : Int)
    (L : List (String × SyncCommandResult)) :
    ∀ acc : AppState × Option String,
      TokenFrame acc.1 ((L.foldl (drain_status_step now) acc).1) := by
  induction L with
  | nil => exact fun acc => TokenFrame.refl _
  | cons kv rest ih =>
      intro acc
      exact TokenFrame.trans (drain_status_step_frame now acc kv)
        (ih (drain_status_step now acc kv))

theorem temp_map_fold_frame (L : List (String × String)) :
    ∀ s : AppState,
      TokenFrame s (L.foldl (fun s kv => apply_temp_id_mapping s kv.1 kv.2) s) := by
  induction L with
  | nil => exact fun s => TokenFrame.refl _
  | cons kv rest ih =>
      intro s
      exact TokenFrame.trans (apply_temp_id_mapping_frame s kv.1 kv.2)
        (ih (apply_temp_id_mapping s kv.1 kv.2))

theorem spawn_comments_fetch_frame (s : AppState) (tid : String) :
    TokenFrame s (spawn_comments_fetch s tid) := ⟨rfl, rfl, rfl⟩

/-- The token/persist effect of `App::apply_sync_delta`: the token becomes
the reply's value exactly when the reply carries a non-empty one, and the
persisted copy follows unless in ephemeral mode. -/
theorem apply_sync_delta_token (now : Int) (s : AppState) (resp : SyncResponse) :
    (apply_sync_delta now s resp).sync_token =
      (if resp.sync_token.isEmpty then s.sync_token else resp.sync_token) ∧
    (apply_sync_delta now s resp).disk_sync_token =
      (if resp.sync_token.isEmpty then s.disk_sync_token
       else if s.ephemeral then s.disk_sync_token else resp.sync_token) := by
  unfold apply_sync_delta save_sync_token
  dsimp only
  have hbr : TokenFrame s
      (if resp.full_sync then apply_full_resp s resp else apply_delta_resp now s resp) := by
    split
    · exact apply_full_resp_frame s resp
    · exact apply_delta_resp_frame now s resp
  set sb := if resp.full_sync then apply_full_resp s resp else apply_delta_resp now s resp
    with hsb
  by_cases he : resp.sync_token.isEmpty
  · simp only [he, Bool.not_true, Bool.false_eq_true, if_false, ite_false,
      if_true, ite_true]
    constructor
    · exact ((clamp_selection_frame now _).1).trans hbr.1
    · exact ((clamp_selection_frame now _).2.1).trans hbr.2.1
  · simp only [he, Bool.not_false, if_true, ite_true]
    by_cases hep : s.ephemeral
    · have hbe : sb.ephemeral = true := hbr.2.2.trans hep
      simp only [hbe, if_true, ite_true, hep]
      constructor
      · exact (clamp_selection_frame now _).1
      · exact ((clamp_selection_frame now _).2.1).trans hbr.2.1
    · have hbe : sb.ephemeral = false := hbr.2.2.trans (by simpa using hep)
      simp only [hbe, Bool.false_eq_true, if_false, ite_false,
        hep]
      constructor
      · exact (clamp_selection_frame now _).1
      · exact (clamp_selection_frame now _).2.1

/-- The token/persist effect of the `CommandResults` case of
`App::drain_bg_results`. -/
theorem drain_command_results_token (now : Int) (s : AppState)
    (resp : SyncResponse) :
    (drain_step now s (.CommandResults resp)).sync_token =
      (if resp.sync_token.isEmpty then s.sync_token else resp.sync_token) ∧
    (drain_step now s (.CommandResults resp)).disk_sync_token =
      (if resp.sync_token.isEmpty then s.disk_sync_token
       else if s.ephemeral then s.disk_sync_token else resp.sync_token) := by
  unfold drain_step save_sync_token
  dsimp only
  have hfold : TokenFrame s ((resp.sync_status.foldl (drain_status_step now) (s, none)).1) :=
    drain_status_fold_frame now resp.sync_status (s, none)
  have hmap : TokenFrame s
      (resp.temp_id_mapping.foldl (fun s kv => apply_temp_id_mapping s kv.1 kv.2)
        ((resp.sync_status.foldl (drain_status_step now) (s, none)).1)) :=
    TokenFrame.trans hfold (temp_map_fold_frame _ _)
  set sm := resp.temp_id_mapping.foldl (fun s kv => apply_temp_id_mapping s kv.1 kv.2)
      ((resp.sync_status.foldl (drain_status_step now) (s, none)).1) with hsm
  by_cases he : resp.sync_token.isEmpty
  · simp only [he, Bool.not_true, Bool.false_eq_true, if_false, ite_false]
    split
    · exact ⟨(spawn_comments_fetch_frame _ _).1.trans hmap.1,
        (spawn_comments_fetch_frame _ _).2.1.trans hmap.2.1⟩
    · exact ⟨hmap.1, hmap.2.1⟩
  · simp only [he, Bool.not_false, if_true, ite_true]
    by_cases hep : s.ephemeral
    · have hbe : sm.ephemeral = true := hmap.2.2.trans hep
      simp only [hbe, if_true, ite_true, hep]
      split
      · exact ⟨rfl, (spawn_comments_fetch_frame _ _).2.1.trans hmap.2.1⟩
      · exact ⟨rfl, hmap.2.1⟩
    · have hbe : sm.ephemeral = false := hmap.2.2.trans (by simpa using hep)
      simp only [hbe, Bool.false_eq_true, if_false, ite_false, hep]
      split
      · exact ⟨rfl, rfl⟩
      · exact ⟨rfl, rfl⟩

/-- C3: across every coordinator event, the in-memory sync token (and its
persisted copy) changes only when a sync or command-flush reply carrying a
non-empty token is applied, in which case both take the reply's value
(the disk copy only outside ephemeral mode); a network failure of a sync
or flush call leaves the whole state untouched. -/
theorem sync_token_transitions (now : Int) (s : AppState) (e : CoordEvent) :
    ((coord_step now s e).sync_token ≠ s.sync_token →
      ∃ resp, (e = .bg (.SyncDelta resp) ∨ e = .bg (.CommandResults resp)) ∧
        resp.sync_token.isEmpty = false ∧
        (coord_step now s e).sync_token = resp.sync_token) ∧
    ((coord_step now s e).disk_sync_token ≠ s.disk_sync_token →
      s.ephemeral = false ∧
      ∃ resp, (e = .bg (.SyncDelta resp) ∨ e = .bg (.CommandResults resp)) ∧
        resp.sync_token.isEmpty = false ∧
        (coord_step now s e).disk_sync_token = resp.sync_token) ∧
    (∀ resp, (e = .bg (.SyncDelta resp) ∨ e = .bg (.CommandResults resp)) →
      resp.sync_token.isEmpty = false →
      (coord_step now s e).sync_token = resp.sync_token ∧
      (coord_step now s e).disk_sync_token =
        (if s.ephemeral then s.disk_sync_token else resp.sync_token)) ∧
    ((e = .sync_call_failed ∨ e = .flush_call_failed) → coord_step now s e = s) := by
  cases e with
  | bg r =>
      cases r with
      | SyncDelta resp =>
          have h := apply_sync_delta_token now s resp
          by_cases he : resp.sync_token.isEmpty
          · simp only [he, if_true, ite_true] at h
            refine ⟨fun hc => absurd h.1 hc, fun hc => absurd h.2 hc, ?_, ?_⟩
            · intro r hr hne
              rcases hr with hr | hr
              · have : resp = r := by simpa using hr
                subst this
                rw [he] at hne
                cases hne
              · simp at hr
            · intro hf
              rcases hf with hf | hf <;> simp at hf
          · simp only [he, Bool.false_eq_true, if_false, ite_false] at h
            have hne : resp.sync_token.isEmpty = false := by simpa using he
            refine ⟨fun _ => ⟨resp, Or.inl rfl, hne, h.1⟩, ?_, ?_, ?_⟩
            · intro hc
              by_cases hep : s.ephemeral
              · rw [if_pos hep] at h
                exact absurd h.2 hc
              · rw [if_neg hep] at h
                exact ⟨by simpa using hep, resp, Or.inl rfl, hne, h.2⟩
            · intro r hr _
              rcases hr with hr | hr
              · have : resp = r := by simpa using hr
                subst this
                exact ⟨h.1, h.2⟩
              · simp at hr
            · intro hf
              rcases hf with hf | hf <;> simp at hf
      | CommandResults resp =>
          have h := drain_command_results_token now s resp
          by_cases he : resp.sync_token.isEmpty
          · simp only [he, if_true, ite_true] at h
            refine ⟨fun hc => absurd h.1 hc, fun hc => absurd h.2 hc, ?_, ?_⟩
            · intro r hr hne
              rcases hr with hr | hr
              · simp at hr
              · have : resp = r := by simpa using hr
                subst this
                rw [he] at hne
                cases hne
            · intro hf
              rcases hf with hf | hf <;> simp at hf
          · simp only [he, Bool.false_eq_true, if_false, ite_false] at h
            have hne : resp.sync_token.isEmpty = false := by simpa using he
            refine ⟨fun _ => ⟨resp, Or.inr rfl, hne, h.1⟩, ?_, ?_, ?_⟩
            · intro hc
              by_cases hep : s.ephemeral
              · rw [if_pos hep] at h
                exact absurd h.2 hc
              · rw [if_neg hep] at h
                exact ⟨by simpa using hep, resp, Or.inr rfl, hne, h.2⟩
            · intro r hr _
              rcases hr with hr | hr
              · simp at hr
              · have : resp = r := by simpa using hr
                subst this
                exact ⟨h.1, h.2⟩
            · intro hf
              rcases hf with hf | hf <;> simp at hf
      | CompletedTasks pid records =>
          have hf : TokenFrame s (coord_step now s (.bg (.CompletedTasks pid records))) := by
            unfold coord_step drain_step set_error
            dsimp only
            split <;> exact ⟨rfl, rfl, rfl⟩
          refine ⟨fun hc => absurd hf.1 hc, fun hc => absurd hf.2.1 hc, ?_, ?_⟩
          · intro r hr
            rcases hr with hr | hr <;> simp at hr
          · intro hh
            rcases hh with hh | hh <;> simp at hh
      | WebSocketConnected =>
          refine ⟨fun hc => absurd rfl hc, fun hc => absurd rfl hc, ?_, ?_⟩
          · intro r hr
            rcases hr with hr | hr <;> simp at hr
          · intro hh
            rcases hh with hh | hh <;> simp at hh
      | WebSocketEvent =>
          have hf : TokenFrame s (coord_step now s (.bg .WebSocketEvent)) := by
            unfold coord_step drain_step spawn_incremental_sync
            dsimp only
            split <;> exact ⟨rfl, rfl, rfl⟩
          refine ⟨fun hc => absurd hf.1 hc, fun hc => absurd hf.2.1 hc, ?_, ?_⟩
          · intro r hr
            rcases hr with hr | hr <;> simp at hr
          · intro hh
            rcases hh with hh | hh <;> simp at hh
      | WebSocketDisconnected =>
          refine ⟨fun hc => absurd rfl hc, fun hc => absurd rfl hc, ?_, ?_⟩
          · intro r hr
            rcases hr with hr | hr <;> simp at hr
          · intro hh
            rcases hh with hh | hh <;> simp at hh
      | Comments tid comments seq =>
          have hf : TokenFrame s (coord_step now s (.bg (.Comments tid comments seq))) := by
            unfold coord_step drain_step set_error
            dsimp only
            repeat' split
            all_goals exact ⟨rfl, rfl, rfl⟩
          refine ⟨fun hc => absurd hf.1 hc, fun hc => absurd hf.2.1 hc, ?_, ?_⟩
          · intro r hr
            rcases hr with hr | hr <;> simp at hr
          · intro hh
            rcases hh with hh | hh <;> simp at hh
  | sync_call_failed =>
      refine ⟨fun hc => absurd rfl hc, fun hc => absurd rfl hc, ?_, fun _ => rfl⟩
      intro r hr
      rcases hr with hr | hr <;> simp at hr
  | flush_call_failed =>
      refine ⟨fun hc => absurd rfl hc, fun hc => absurd rfl hc, ?_, fun _ => rfl⟩
      intro r hr
      rcases hr with hr | hr <;> simp at hr
  | key_activity t =>
      have hf : TokenFrame s (coord_step now s (.key_activity t)) := by
        unfold coord_step spawn_incremental_sync
        dsimp only
        split <;> exact ⟨rfl, rfl, rfl⟩
      refine ⟨fun hc => absurd hf.1 hc, fun hc => absurd hf.2.1 hc, ?_, ?_⟩
      · intro r hr
        rcases hr with hr | hr <;> simp at hr
      · intro hh
        rcases hh with hh | hh <;> simp at hh

/-- C3 witness: applying a delta reply carrying token `"T2"` to the empty
state sets both the in-memory and persisted token to `"T2"`. -/
theorem sync_token_transitions_witness :
    (coord_step 0 emptyState (.bg (.SyncDelta { emptyResp with sync_token := "T2" }))).sync_token = "T2" ∧
    (coord_step 0 emptyState (.bg (.SyncDelta { emptyResp with sync_token := "T2" }))).disk_sync_token = "T2" := by
  have h := (sync_token_transitions 0 emptyState
    (.bg (.SyncDelta { emptyResp with sync_token := "T2" }))).2.2.1
    { emptyResp with sync_token := "T2" } (Or.inl rfl) rfl
  exact ⟨h.1, by rw [h.2]; rfl⟩

/-! ## C4 — temp-id reconciliation -/

/-- If a predicate holds for at most one list element and the rewrite kills
it, no element of the rewritten list satisfies it. -/
theorem set_first_by_none_left {α : Type} (p : α → Bool) (f : α → α)
    (hf : ∀ x, p (f x) = false) :
    ∀ l : List α, (l.filter p).length ≤ 1 →
      ∀ u ∈ set_first_by p f l, p u = false := by
  intro l
  induction l with
  | nil => intro _ u hu; cases hu
  | cons x rest ih =>
      intro hlen u hu
      unfold set_first_by at hu
      by_cases hx : p x
      · rw [if_pos hx] at hu
        rcases List.mem_cons.mp hu with hu | hu
        · rw [hu]; exact hf x
        · have hrest : (rest.filter p).length = 0 := by
            have : (List.filter p (x :: rest)).length = (rest.filter p).length + 1 := by
              simp [List.filter_cons, hx]
            omega
          have : rest.filter p = [] := List.length_eq_zero.mp hrest
          by_contra hb
          have hmem : u ∈ rest.filter p := List.mem_filter.mpr ⟨hu, by
            cases hpu : p u
            · exact absurd hpu hb
            · rfl⟩
          rw [this] at hmem
          cases hmem
      · rw [if_neg hx] at hu
        rcases List.mem_cons.mp hu with hu | hu
        · rw [hu]
          cases hpx : p x
          · rfl
          · exact absurd hpx hx
        · have hlen' : (rest.filter p).length ≤ 1 := by
            have : (List.filter p (x :: rest)).length = (rest.filter p).length := by
              simp [List.filter_cons, hx]
            omega
          exact ih hlen' u hu

/-- The comment rename performed by `apply_temp_id_mapping`. -/
def rename_comment (temp_id real_id : String) (c : Comment) : Comment :=
  let c := if c.id == temp_id then { c with id := real_id } else c
  if c.item_id == some temp_id then { c with item_id := some real_id } else c

theorem apply_temp_id_mapping_comments (s : AppState) (t r : String) :
    (apply_temp_id_mapping s t r).comments = s.comments.map (rename_comment t r) := rfl

theorem rename_comment_clears (t r : String) (htr : t ≠ r) (c : Comment) :
    (rename_comment t r c).id ≠ t ∧ (rename_comment t r c).item_id ≠ some t := by
  have hrt : ¬ (r = t) := fun h => htr h.symm
  have hsrt : ¬ (some r = some t) := fun h => hrt (Option.some.inj h)
  unfold rename_comment
  dsimp only
  by_cases h1 : c.id == t
  · rw [if_pos h1]
    by_cases h2 : c.item_id == some t
    · rw [if_pos h2]
      exact ⟨hrt, hsrt⟩
    · rw [if_neg h2]
      exact ⟨hrt, by simpa using h2⟩
  · rw [if_neg h1]
    by_cases h2 : c.item_id == some t
    · rw [if_pos h2]
      exact ⟨by simpa using h1, hsrt⟩
    · rw [if_neg h2]
      exact ⟨by simpa using h1, by simpa using h2⟩

theorem rename_comment_item (t r : String) (c : Comment)
    (h : c.item_id = some t) : (rename_comment t r c).item_id = some r := by
  unfold rename_comment
  dsimp only
  split <;> simp_all

/-- The ok branch of the `sync_status` loop never touches the entity
collections. -/
theorem drain_status_step_ok_entities (now : Int) (acc : AppState × Option String)
    (uuid msg : String) :
    ((drain_status_step now acc (uuid, .ok msg)).1).tasks = acc.1.tasks ∧
    ((drain_status_step now acc (uuid, .ok msg)).1).comments = acc.1.comments ∧
    ((drain_status_step now acc (uuid, .ok msg)).1).comments_by_task =
      acc.1.comments_by_task := by
  unfold drain_status_step
  simp only [SyncCommandResult.is_err, Bool.false_eq_true, ite_false]
  repeat' split
  all_goals exact ⟨rfl, rfl, rfl⟩

/-- C4: reconciling a successful reply whose mapping carries `t → r` (with
`t` a genuine temp id: distinct from `r`, held by at most one task, and
absent from the server-fed comment buckets) leaves no task and no comment
with id `t`, and rewrites every mirror comment whose `item_id` was `t` to
`item_id = r`. -/
theorem temp_id_reconcile (now : Int) (s : AppState)
    (resp : SyncResponse) (uuid msg t r : String)
    (hst : resp.sync_status = [(uuid, .ok msg)])
    (hmap : resp.temp_id_mapping = [(t, r)])
    (htr : t ≠ r)
    (hcount : (s.tasks.filter (fun u => u.id == t)).length ≤ 1)
    (hbuck : ∀ kv ∈ s.comments_by_task, ∀ c ∈ kv.2, c.id ≠ t ∧ c.item_id ≠ some t) :
    (∀ u ∈ (drain_step now s (.CommandResults resp)).tasks, u.id ≠ t) ∧
    (∀ c ∈ (drain_step now s (.CommandResults resp)).comments,
      c.id ≠ t ∧ c.item_id ≠ some t) ∧
    (∀ kv ∈ (drain_step now s (.CommandResults resp)).comments_by_task,
      ∀ c ∈ kv.2, c.id ≠ t ∧ c.item_id ≠ some t) ∧
    (∀ i c, s.comments.get? i = some c → c.item_id = some t →
      ((drain_step now s (.CommandResults resp)).comments.get? i).map (·.item_id) =
        some (some r)) := by
  have hok := drain_status_step_ok_entities now (s, none) uuid msg
  have hentities :
      (drain_step now s (.CommandResults resp)).tasks =
        ((resp.temp_id_mapping.foldl (fun s kv => apply_temp_id_mapping s kv.1 kv.2)
          ((resp.sync_status.foldl (drain_status_step now) (s, none)).1))).tasks ∧
      (drain_step now s (.CommandResults resp)).comments =
        ((resp.temp_id_mapping.foldl (fun s kv => apply_temp_id_mapping s kv.1 kv.2)
          ((resp.sync_status.foldl (drain_status_step now) (s, none)).1))).comments ∧
      (drain_step now s (.CommandResults resp)).comments_by_task =
        ((resp.temp_id_mapping.foldl (fun s kv => apply_temp_id_mapping s kv.1 kv.2)
          ((resp.sync_status.foldl (drain_status_step now) (s, none)).1))).comments_by_task := by
    unfold drain_step save_sync_token
    dsimp only
    repeat' split
    all_goals exact ⟨rfl, rfl, rfl⟩
  rw [hst, hmap] at hentities
  simp only [List.foldl_cons, List.foldl_nil] at hentities
  set s1 := (drain_status_step now (s, none) (uuid, .ok msg)).1 with hs1
  have htasks : (drain_step now s (.CommandResults resp)).tasks =
      set_first_by (fun u => u.id == t) (fun u => { u with id := r }) s.tasks := by
    rw [hentities.1]
    show (set_first_by (fun u => u.id == t) (fun u => { u with id := r }) s1.tasks) = _
    rw [hok.1]
  have hcomments : (drain_step now s (.CommandResults resp)).comments =
      s.comments.map (rename_comment t r) := by
    rw [hentities.2.1]
    show s1.comments.map (rename_comment t r) = _
    rw [hok.2.1]
  have hbuckets : (drain_step now s (.CommandResults resp)).comments_by_task =
      s.comments_by_task := by
    rw [hentities.2.2]
    show s1.comments_by_task = _
    exact hok.2.2
  refine ⟨?_, ?_, ?_, ?_⟩
  · intro u hu
    rw [htasks] at hu
    have := set_first_by_none_left (fun u => u.id == t) (fun u => { u with id := r })
      (fun x => by simp [htr.symm]) s.tasks hcount u hu
    simpa using this
  · intro c hc
    rw [hcomments] at hc
    rcases List.mem_map.mp hc with ⟨c0, _, hc0⟩
    rw [← hc0]
    exact rename_comment_clears t r htr c0
  · intro kv hkv c hc
    rw [hbuckets] at hkv
    exact hbuck kv hkv c hc
  · intro i c hget hitem
    rw [hcomments, List.get?_map, hget]
    simp [rename_comment_item t r c hitem]

/-- The C4 fixture: one task still holding the temp id `tmp_0` and one mirror
comment pointing at it. -/
def c4State : AppState :=
  { emptyState with
      tasks := [mkTask "tmp_0" "New task" "p1"],
      comments := [{ Comment.defaultComment with
                       id := "c1", item_id := some "tmp_0" }] }

/-- The C4 reply: command `U4` accepted, mapping `tmp_0` to the real id `i3`. -/
def c4Resp : SyncResponse :=
  { emptyResp with
      sync_status := [("U4", .ok "ok")],
      temp_id_mapping := [("tmp_0", "i3")] }

/-- C4 witness: reconciling the concrete reply renames the task and rewires
the mirror comment, leaving nothing holding `tmp_0`. -/
theorem temp_id_reconcile_witness :
    (∀ u ∈ (drain_step 0 c4State (.CommandResults c4Resp)).tasks, u.id ≠ "tmp_0") ∧
    (∀ c ∈ (drain_step 0 c4State (.CommandResults c4Resp)).comments,
      c.id ≠ "tmp_0" ∧ c.item_id ≠ some "tmp_0") ∧
    (∀ kv ∈ (drain_step 0 c4State (.CommandResults c4Resp)).comments_by_task,
      ∀ c ∈ kv.2, c.id ≠ "tmp_0" ∧ c.item_id ≠ some "tmp_0") ∧
    (∀ i c, c4State.comments.get? i = some c → c.item_id = some "tmp_0" →
      ((drain_step 0 c4State (.CommandResults c4Resp)).comments.get? i).map
        (·.item_id) = some (some "i3")) :=
  temp_id_reconcile 0 c4State c4Resp "U4" "ok" "tmp_0" "i3" rfl rfl
    (by decide) (by decide) (by decide)

/-! ## C6 — idle coalescing of push-channel syncs

While the user is idle, a `WebSocketEvent` only raises `pending_ws_sync`
(no sync is spawned); the first key press afterwards spawns exactly one
incremental sync and clears the flag.  While not idle, each event spawns
one sync directly. -/

/-- One idle websocket event only raises the pending flag. -/
theorem ws_idle_step (u : Int) (s : AppState) (h : is_idle u s = true) :
    coord_step u s (.bg .WebSocketEvent) =
      { s with websocket_connected := true, pending_ws_sync := true } := by
  have h2 : is_idle u { s with websocket_connected := true } = true := by
    simpa [is_idle] using h
  unfold coord_step drain_step
  dsimp only
  rw [if_pos h2]

/-- A nonempty run of idle websocket events collapses to a single marking
of the pending flag (plus the connected flag). -/
theorem ws_fold_struct (ts : List Int) (s : AppState)
    (hidle : ∀ u ∈ ts, is_idle u s = true) (hne : ts.isEmpty = false) :
    ts.foldl (fun a u => coord_step u a (.bg .WebSocketEvent)) s =
      { s with websocket_connected := true, pending_ws_sync := true } := by
  induction ts generalizing s with
  | nil => simp at hne
  | cons u rest ih =>
      have hstep := ws_idle_step u s (hidle u (by simp))
      rcases hres : rest.isEmpty with hres1 | hres1
      · rw [List.foldl_cons, hstep]
        have hidle2 : ∀ v ∈ rest,
            is_idle v { s with websocket_connected := true,
                               pending_ws_sync := true } = true := by
          intro v hv
          simpa [is_idle] using hidle v (List.mem_cons_of_mem _ hv)
        rw [ih _ hidle2 hres]
      · have : rest = [] := by simpa using hres
        subst this
        simpa [List.foldl] using hstep

/-- C6: for a nonempty run of websocket events received while idle, no sync
is spawned during the run and the first subsequent key press spawns exactly
one; while not idle, each websocket event spawns exactly one sync. -/
theorem idle_coalescing (s : AppState) (ts : List Int) (t : Int)
    (hne : ts.isEmpty = false)
    (hidle : ∀ u ∈ ts, is_idle u s = true)
    (hkidle : is_idle t s = true) :
    (ts.foldl (fun a u => coord_step u a (.bg .WebSocketEvent)) s).spawned_syncs
        = s.spawned_syncs ∧
    (coord_step t (ts.foldl (fun a u => coord_step u a (.bg .WebSocketEvent)) s)
        (.key_activity t)).spawned_syncs = s.spawned_syncs + 1 ∧
    (∀ u s0, is_idle u s0 = false →
      (coord_step u s0 (.bg .WebSocketEvent)).spawned_syncs
        = s0.spawned_syncs + 1) := by
  have hfold := ws_fold_struct ts s hidle hne
  have hk : is_idle t { s with websocket_connected := true,
                               pending_ws_sync := true } = true := by
    simpa [is_idle] using hkidle
  refine ⟨?_, ?_, ?_⟩
  · rw [hfold]
  · rw [hfold]
    unfold coord_step spawn_incremental_sync
    dsimp only
    split
    · rfl
    · rename_i hcond
      simp [hk] at hcond
  · intro u s0 h0
    unfold coord_step drain_step spawn_incremental_sync
    dsimp only
    split
    · rename_i hcond
      rw [show is_idle u { s0 with websocket_connected := true }
            = is_idle u s0 from rfl, h0] at hcond
      simp at hcond
    · rfl

/-- C6 witness: three websocket events at an idle moment spawn nothing;
the key press at t = 1003 spawns exactly one sync. -/
theorem idle_coalescing_witness :
    (([(1000 : Int), 1001, 1002].foldl
        (fun a u => coord_step u a (.bg .WebSocketEvent)) emptyState).spawned_syncs
      = emptyState.spawned_syncs) ∧
    ((coord_step 1003
        ([(1000 : Int), 1001, 1002].foldl
          (fun a u => coord_step u a (.bg .WebSocketEvent)) emptyState)
        (.key_activity 1003)).spawned_syncs = emptyState.spawned_syncs + 1) ∧
    (∀ u s0, is_idle u s0 = false →
      (coord_step u s0 (.bg .WebSocketEvent)).spawned_syncs
        = s0.spawned_syncs + 1) :=
  idle_coalescing emptyState [1000, 1001, 1002] 1003 rfl (by decide) (by decide)

/-! ## C7 — 429 handling and retry (the sync transport is not under src/:
`TodoistClient::sync` and its retry wrapper are only called from app.rs, so
the definitions below are modelled from the spec, §4.1–§4.2). -/

/-- Modelled from the spec: the observable result of one HTTP exchange at
the sync endpoint — a network error, or a status code together with the
optional Retry-After header, the optional body retry_after field, and the
body text. -/
inductive HttpReply where
  | network_error
  | http (status : Nat) (retry_after_header : Option Nat)
      (body_retry_after : Option Nat) (body : String)
deriving DecidableEq, Repr

/-- Modelled from the spec: the transport's typed failures (generic network
failure, rate limit with the server-suggested interval, other non-success
HTTP with status and body). -/
inductive SyncError where
  | transport_failure
  | rate_limited (retry_after : Option Nat)
  | http_error (status : Nat) (body : String)
deriving DecidableEq, Repr

/-- Modelled from the spec: classification of one exchange — network error
to a generic transport failure, HTTP 429 to a typed rate-limit failure
carrying the interval from the Retry-After header or else the body field,
other non-success HTTP to a transport error with status and body. -/
def classify_reply (r : HttpReply) : Except SyncError Unit :=
  match r with
  | .network_error => .error .transport_failure
  | .http status hdr bodyra body =>
      if status = 429 then .error (.rate_limited (hdr.orElse (fun _ => bodyra)))
      else if 200 ≤ status ∧ status < 300 then .ok ()
      else .error (.http_error status body)

/-- The outcome of the retry wrapper: the final result, how many calls were
made, and the sleep durations between them. -/
structure RetryResult where
  result : Except SyncError Unit
  attempts : Nat
  sleeps : List Nat
deriving DecidableEq, Repr

/-- Modelled from the spec: the retry loop.  `remaining` counts retries
still allowed; each level performs one call (`replies attempt`), passes
success and non-rate-limit errors through immediately, and on a rate limit
sleeps max(server interval, base) + jitter, doubles the base capped at 60
and recurses; with no retries left the rate limit is terminal. -/
def sync_attempt_loop (replies : Nat → HttpReply) (jitter : Nat → Nat) :
    Nat → Nat → Nat → List Nat → RetryResult
  | 0, attempt, _base, sleeps =>
      match classify_reply (replies attempt) with
      | .ok u => { result := .ok u, attempts := attempt + 1, sleeps := sleeps }
      | .error e => { result := .error e, attempts := attempt + 1, sleeps := sleeps }
  | remaining + 1, attempt, base, sleeps =>
      match classify_reply (replies attempt) with
      | .ok u => { result := .ok u, attempts := attempt + 1, sleeps := sleeps }
      | .error (.rate_limited ra) =>
          sync_attempt_loop replies jitter remaining (attempt + 1)
            (min (base * 2) 60)
            (sleeps ++ [max (ra.getD 0) base + jitter attempt])
      | .error e => { result := .error e, attempts := attempt + 1, sleeps := sleeps }

/-- Modelled from the spec: the wrapper around `sync` — up to 3 retries
after the first call, starting from the given base delay. -/
def sync_with_retry (replies : Nat → HttpReply) (jitter : Nat → Nat)
    (base0 : Nat) : RetryResult :=
  sync_attempt_loop replies jitter 3 0 base0 []

/-- C7 (spec-modelled): an HTTP 429 classifies as a typed rate-limit
failure carrying the header interval or else the body field; with every
call rate-limited the wrapper sleeps max(interval, base) + jitter with the
base doubling capped at 60 s, gives up after 3 retries with a terminal
rate-limit error; any other error, and success, pass through immediately
with no sleep. -/
theorem rate_limit_retry
    (replies replies2 : Nat → HttpReply) (jitter : Nat → Nat) (base0 : Nat)
    (ra : Nat → Option Nat)
    (hrl : ∀ i, classify_reply (replies i) = .error (.rate_limited (ra i))) :
    (∀ hdr bra body, classify_reply (.http 429 hdr bra body)
        = .error (.rate_limited (hdr.orElse (fun _ => bra)))) ∧
    (sync_with_retry replies jitter base0 =
      { result := .error (.rate_limited (ra 3)), attempts := 4,
        sleeps := [max ((ra 0).getD 0) base0 + jitter 0,
                   max ((ra 1).getD 0) (min (base0 * 2) 60) + jitter 1,
                   max ((ra 2).getD 0) (min (min (base0 * 2) 60 * 2) 60)
                     + jitter 2] }) ∧
    (∀ e, classify_reply (replies2 0) = .error e →
      (∀ v, e ≠ .rate_limited v) →
      sync_with_retry replies2 jitter base0 =
        { result := .error e, attempts := 1, sleeps := [] }) ∧
    (classify_reply (replies2 0) = .ok () →
      sync_with_retry replies2 jitter base0 =
        { result := .ok (), attempts := 1, sleeps := [] }) := by
  refine ⟨?_, ?_, ?_, ?_⟩
  · intro hdr bra body
    rfl
  · simp [sync_with_retry, sync_attempt_loop, hrl]
  · intro e h1 h2
    cases e with
    | transport_failure => simp [sync_with_retry, sync_attempt_loop, h1]
    | rate_limited v => exact absurd rfl (h2 v)
    | http_error st b => simp [sync_with_retry, sync_attempt_loop, h1]
  · intro h1
    simp [sync_with_retry, sync_attempt_loop, h1]

/-- C7 witness: three-plus rate-limited replies at Retry-After 2 with base
5 and unit jitter, versus a network failure which propagates at once. -/
theorem rate_limit_retry_witness :
    ((∀ hdr bra body, classify_reply (.http 429 hdr bra body)
        = .error (.rate_limited (hdr.orElse (fun _ => bra)))) ∧
    (sync_with_retry (fun _ => .http 429 (some 2) none "") (fun _ => 1) 5 =
      { result := .error (.rate_limited (some 2)), attempts := 4,
        sleeps := [max ((some (2 : Nat)).getD 0) 5 + 1,
                   max ((some (2 : Nat)).getD 0) (min (5 * 2) 60) + 1,
                   max ((some (2 : Nat)).getD 0) (min (min (5 * 2) 60 * 2) 60)
                     + 1] }) ∧
    (∀ e, classify_reply ((fun _ => HttpReply.network_error) 0) = .error e →
      (∀ v, e ≠ .rate_limited v) →
      sync_with_retry (fun _ => .network_error) (fun _ => 1) 5 =
        { result := .error e, attempts := 1, sleeps := [] }) ∧
    (classify_reply ((fun _ => HttpReply.network_error) 0) = .ok () →
      sync_with_retry (fun _ => .network_error) (fun _ => 1) 5 =
        { result := .ok (), attempts := 1, sleeps := [] })) :=
  rate_limit_retry (fun _ => .http 429 (some 2) none "")
    (fun _ => .network_error) (fun _ => 1) 5 (fun _ => some 2) (fun _ => rfl)

/-! ## C2 — submit-then-reject rollback

The reversal record restores every entity field, but the project-favorite
kind re-sorts after restoring the flag: a stable re-sort of the already
re-sorted list can leave tied siblings in a different relative order than
before the submission, so structural equality of the project list fails
while all collections still agree as multisets. -/

/-- A reply that rejects the single command `uuid` and carries nothing
else. -/
def reject_reply (uuid : String) (code : Int) (msg : String) : SyncResponse :=
  { emptyResp with sync_status := [(uuid, .err code msg)] }

/-- The C2 counterexample state: two tied personal projects, the second one
selected. -/
def c2State : AppState :=
  { emptyState with
      projects := [mkProject "p" "P" 0, mkProject "q" "Q" 0],
      selected_project := 1 }

/-- C2 counterexample: starring the selected tied project and then replaying
the rejection leaves the projects in the order q, p — not the original
p, q — because the rollback re-sort is stable on the already swapped
list. -/
theorem star_reject_reorders :
    ((drain_step 0 (star_selected_project c2State "U1")
        (.CommandResults (reject_reply "U1" 400 "bad"))).projects.map (·.id)
       = ["q", "p"] ∧
     c2State.projects.map (·.id) = ["p", "q"]) ∧
    (drain_step 0 (star_selected_project c2State "U1")
        (.CommandResults (reject_reply "U1" 400 "bad"))).projects
      ≠ c2State.projects := by decide

/-- Lookup after an in-place update at a present key. -/
theorem assocFind_assocUpdate_self {β : Type} (m : List (String × β))
    (k : String) (v : β) (h : m.any (fun kv => kv.1 == k) = true) :
    assocFind? (assocUpdate m k (fun _ => v)) k = some v := by
  induction m with
  | nil => simp at h
  | cons kv rest ih =>
      by_cases hk : kv.1 == k
      · simp [assocUpdate, assocFind?, List.find?, hk]
      · simp only [List.any_cons, Bool.or_eq_true] at h
        rcases h with h | h
        · simp [hk] at h
        · have := ih h
          simpa [assocUpdate, assocFind?, List.find?, hk] using this

/-- Lookup after appending a pair at an absent key. -/
theorem assocFind_append_self {β : Type} (m : List (String × β))
    (k : String) (v : β) (h : m.any (fun kv => kv.1 == k) = false) :
    assocFind? (m ++ [(k, v)]) k = some v := by
  induction m with
  | nil => simp [assocFind?, List.find?]
  | cons kv rest ih =>
      simp only [List.any_cons, Bool.or_eq_false_iff] at h
      have := ih h.2
      simpa [assocFind?, List.find?, h.1] using this

/-- `HashMap::insert` then lookup at the inserted key. -/
theorem assocFind_assocSet_self {β : Type} (m : List (String × β))
    (k : String) (v : β) : assocFind? (assocSet m k v) k = some v := by
  unfold assocSet
  split
  · exact assocFind_assocUpdate_self m k v (by assumption)
  · rename_i h
    exact assocFind_append_self m k v (Bool.eq_false_iff.mpr h)

/-- Mutating the first match and then restoring it from the pre-mutation
snapshot is the identity, as long as the mutation keeps the match. -/
theorem set_first_by_roundtrip {α : Type} (p : α → Bool) (f : α → α)
    (hf : ∀ x, p x = true → p (f x) = true) (xs : List α) (x0 : α)
    (hx0 : xs.find? p = some x0) :
    set_first_by p (fun _ => x0) (set_first_by p f xs) = xs := by
  induction xs with
  | nil => simp at hx0
  | cons x rest ih =>
      by_cases hp : p x
      · have hx : x0 = x := by
          rw [List.find?_cons_of_pos _ hp] at hx0
          exact (Option.some.inj hx0).symm
        simp only [set_first_by, if_pos hp]
        simp only [set_first_by, if_pos (hf x hp), hx]
      · rw [List.find?_cons_of_neg _ hp] at hx0
        simp only [set_first_by, if_neg hp]
        rw [ih hx0]

/-- Overwriting the first match with itself is the identity. -/
theorem set_first_by_self {α : Type} (p : α → Bool) (xs : List α) (x0 : α)
    (hx0 : xs.find? p = some x0) :
    set_first_by p (fun _ => x0) xs = xs := by
  induction xs with
  | nil => simp at hx0
  | cons x rest ih =>
      by_cases hp : p x
      · have hx : x0 = x := by
          rw [List.find?_cons_of_pos _ hp] at hx0
          exact (Option.some.inj hx0).symm
        simp [set_first_by, hp, hx]
      · rw [List.find?_cons_of_neg _ hp] at hx0
        simp [set_first_by, hp, ih hx0]

/-- Filtering out a freshly appended element restores the original list. -/
theorem filter_append_singleton_fresh {α : Type} (q : α → Bool) (xs : List α)
    (y : α) (hy : q y = false) (hxs : ∀ x ∈ xs, q x = true) :
    (xs ++ [y]).filter q = xs := by
  rw [List.filter_append, List.filter_eq_self.mpr hxs]
  simp [List.filter, hy]

/-- The comparison of C2: structural equality of the entity collections
(projects, tasks, labels, sections, comments and the mirror buckets). -/
def EntityEq (a b : AppState) : Prop :=
  a.projects = b.projects ∧ a.tasks = b.tasks ∧ a.labels = b.labels ∧
  a.sections = b.sections ∧ a.comments = b.comments ∧
  a.comments_by_task = b.comments_by_task

/-- `flush_commands` moves the command queue only. -/
theorem flush_commands_fields (s : AppState) :
    (flush_commands s).projects = s.projects ∧
    (flush_commands s).tasks = s.tasks ∧
    (flush_commands s).labels = s.labels ∧
    (flush_commands s).sections = s.sections ∧
    (flush_commands s).comments = s.comments ∧
    (flush_commands s).comments_by_task = s.comments_by_task ∧
    (flush_commands s).temp_id_pending = s.temp_id_pending ∧
    (flush_commands s).selected_task = s.selected_task ∧
    (flush_commands s).selected_project = s.selected_project := by
  unfold flush_commands
  split <;> exact ⟨rfl, rfl, rfl, rfl, rfl, rfl, rfl, rfl, rfl⟩

/-- Replaying a rejection of `uuid` reduces to the reversal record replay
(plus the error banner and the pending-table removal). -/
theorem drain_reject (now : Int) (s : AppState) (resp : SyncResponse)
    (uuid : String) (code : Int) (msg : String) (op : OptimisticOp)
    (hst : resp.sync_status = [(uuid, .err code msg)])
    (hmap : resp.temp_id_mapping = [])
    (htok : resp.sync_token = "")
    (hfind : assocFind? s.temp_id_pending uuid = some op) :
    drain_step now s (.CommandResults resp) =
      { revert_optimistic now
          { s with temp_id_pending := (assocRemove s.temp_id_pending uuid).2 }
          op with
        error := some { title := "Command failed", message := msg,
                        suggestion := none, recoverable := true } } := by
  unfold drain_step
  dsimp only
  rw [hst, hmap, htok]
  simp only [List.foldl_cons, List.foldl_nil]
  unfold drain_status_step
  dsimp only [SyncCommandResult.is_err]
  rw [if_pos rfl]
  unfold assocRemove
  dsimp only
  rw [hfind]
  dsimp only [SyncCommandResult.error_message, Option.getD]
  split
  · rename_i hc
    exact absurd hc (by decide)
  · rfl

/-! ### Project-walk machinery

`collect_project_subtree` walks the parent links.  Under distinct project
ids the walk from an acyclic key collects each project at most once; the
facts below (unique chain depth, unique key at a depth, acyclicity
propagation) make that precise. -/

/-- `x` hangs below key `k` through `n` intermediate parents drawn from
`all` (bottom-up: the head constructor follows the `x` parent link). -/
def descends (all : List Project) : Nat → Option String → Project → Prop
  | 0, k, x => x.parent_id = k
  | n + 1, k, x => ∃ c, c ∈ all ∧ x.parent_id = some c.id ∧ descends all n k c

/-- Prefixing a chain with one more parent step. -/
theorem descends_top (all : List Project) (c : Project) (k : Option String)
    (hc : c ∈ all) (hck : c.parent_id = k) :
    ∀ n x, descends all n (some c.id) x → descends all (n + 1) k x := by
  intro n
  induction n with
  | zero => intro x hx; exact ⟨c, hc, hx, hck⟩
  | succ n ih =>
      intro x hx
      rcases hx with ⟨d, hd, hxd, hdk⟩
      exact ⟨d, hd, hxd, ih d hdk⟩

/-- At a fixed depth the chain determines the key (distinct ids). -/
theorem descends_key_det (all : List Project)
    (hids : (all.map (fun p => p.id)).Nodup) :
    ∀ n (j j' : Option String) x,
      descends all n j x → descends all n j' x → j = j' := by
  intro n
  induction n with
  | zero => intro j j' x h h'; rw [← h, ← h']
  | succ n ih =>
      intro j j' x h h'
      rcases h with ⟨c, hc, hxc, hcj⟩
      rcases h' with ⟨c', hc', hxc', hcj'⟩
      have hcc : c = c' := List.inj_on_of_nodup_map hids hc hc'
        (Option.some.inj (hxc.symm.trans hxc'))
      subst hcc
      exact ih j j' c hcj hcj'

/-- A key no member of `all` named by it hangs below: the walk from such a
key cannot revisit it. -/
def Acyc (all : List Project) (k : Option String) : Prop :=
  ∀ c ∈ all, k = some c.id → ∀ n, ¬ descends all n k c

/-- From an acyclic key the chain depth to an element is unique. -/
theorem descends_det (all : List Project)
    (hids : (all.map (fun p => p.id)).Nodup)
    (k : Option String) (hk : Acyc all k) :
    ∀ n m x, descends all n k x → descends all m k x → n = m := by
  intro n
  induction n with
  | zero =>
      intro m x h h'
      cases m with
      | zero => rfl
      | succ m =>
          rcases h' with ⟨c, hc, hxc, hck⟩
          exact absurd hck (hk c hc (h.symm.trans hxc) m)
  | succ n ih =>
      intro m x h h'
      cases m with
      | zero =>
          rcases h with ⟨c, hc, hxc, hck⟩
          exact absurd hck (hk c hc (h'.symm.trans hxc) n)
      | succ m =>
          rcases h with ⟨c, hc, hxc, hck⟩
          rcases h' with ⟨c', hc', hxc', hck'⟩
          have hcc : c = c' := List.inj_on_of_nodup_map hids hc hc'
            (Option.some.inj (hxc.symm.trans hxc'))
          subst hcc
          exact congrArg Nat.succ (ih m c hck hck')

/-- The root key (no parent) is acyclic. -/
theorem acyc_none (all : List Project) : Acyc all none := by
  intro c hc h n
  cases h

/-- Acyclicity propagates from a key to each of its children. -/
theorem acyc_step (all : List Project)
    (hids : (all.map (fun p => p.id)).Nodup)
    (k : Option String) (hk : Acyc all k) (c0 : Project)
    (hc0 : c0 ∈ all) (hp : c0.parent_id = k) : Acyc all (some c0.id) := by
  intro c hc hkey n hdesc
  have hcc : c = c0 := List.inj_on_of_nodup_map hids hc hc0
    (Option.some.inj hkey).symm
  subst hcc
  have h1 : descends all (n + 1) k c := descends_top all c k hc hp n c hdesc
  have h0 : descends all 0 k c := hp
  exact Nat.noConfusion (descends_det all hids k hk 0 (n + 1) c h0 h1)

/-- Everything the walk collects comes from `all`. -/
theorem collect_subset (all : List Project) :
    ∀ fuel k x, x ∈ collect_project_subtree all fuel k → x ∈ all := by
  intro fuel
  induction fuel with
  | zero => intro k x hx; simp [collect_project_subtree] at hx
  | succ fuel ih =>
      intro k x hx
      simp only [collect_project_subtree] at hx
      rw [List.mem_flatMap] at hx
      rcases hx with ⟨c, hc, hx⟩
      have hcall : c ∈ all :=
        List.mem_of_mem_filter ((List.mem_insertionSort projLe).mp hc)
      rcases List.mem_cons.mp hx with rfl | hx
      · exact hcall
      · exact ih (some c.id) x hx

/-- Everything the walk collects hangs below the walked key, at depth
below the fuel. -/
theorem collect_descends (all : List Project) :
    ∀ fuel k x, x ∈ collect_project_subtree all fuel k →
      ∃ n, n < fuel ∧ descends all n k x := by
  intro fuel
  induction fuel with
  | zero => intro k x hx; simp [collect_project_subtree] at hx
  | succ fuel ih =>
      intro k x hx
      simp only [collect_project_subtree] at hx
      rw [List.mem_flatMap] at hx
      rcases hx with ⟨c, hc, hx⟩
      have hc2 := (List.mem_insertionSort projLe).mp hc
      have hcall : c ∈ all := List.mem_of_mem_filter hc2
      have hck : c.parent_id = k := by simpa using List.of_mem_filter hc2
      rcases List.mem_cons.mp hx with rfl | hx
      · exact ⟨0, Nat.succ_pos _, hck⟩
      · rcases ih (some c.id) x hx with ⟨n, hn, hd⟩
        exact ⟨n + 1, Nat.succ_lt_succ hn, descends_top all c k hcall hck n x hd⟩

/-- From an acyclic key the walk collects pairwise distinct ids. -/
theorem collect_nodup (all : List Project)
    (hids : (all.map (fun p => p.id)).Nodup) :
    ∀ fuel k, Acyc all k →
      ((collect_project_subtree all fuel k).map (fun p => p.id)).Nodup := by
  intro fuel
  induction fuel with
  | zero => intro k hk; simp [collect_project_subtree]
  | succ fuel ih =>
      intro k hk
      simp only [collect_project_subtree]
      rw [List.map_flatMap, List.nodup_flatMap]
      constructor
      · intro c hcs
        have hc2 := (List.mem_insertionSort projLe).mp hcs
        have hcall : c ∈ all := List.mem_of_mem_filter hc2
        have hck : c.parent_id = k := by simpa using List.of_mem_filter hc2
        have hkc : Acyc all (some c.id) := acyc_step all hids k hk c hcall hck
        simp only [List.map_cons]
        rw [List.nodup_cons]
        refine ⟨?_, ih (some c.id) hkc⟩
        intro hmem
        rw [List.mem_map] at hmem
        rcases hmem with ⟨x, hx, hxid⟩
        have hxall : x ∈ all := collect_subset all fuel (some c.id) x hx
        have hxc : x = c := List.inj_on_of_nodup_map hids hxall hcall hxid
        subst hxc
        rcases collect_descends all fuel (some x.id) x hx with ⟨n, _, hd⟩
        exact hkc x hxall rfl n hd
      · have hchild_nodup :
            (List.insertionSort projLe
              (all.filter (fun p => p.parent_id == k))).Nodup :=
          ((List.perm_insertionSort projLe _).nodup_iff).mpr
            (List.Nodup.filter _ (List.Nodup.of_map _ hids))
        apply hchild_nodup.pairwise_of_forall_ne
        intro c hc c2 hc2 hne
        have hcf := (List.mem_insertionSort projLe).mp hc
        have hc2f := (List.mem_insertionSort projLe).mp hc2
        have hcall : c ∈ all := List.mem_of_mem_filter hcf
        have hc2all : c2 ∈ all := List.mem_of_mem_filter hc2f
        have hck : c.parent_id = k := by simpa using List.of_mem_filter hcf
        have hc2k : c2.parent_id = k := by simpa using List.of_mem_filter hc2f
        intro z hz hz2
        simp only [Function.onFun] at hz hz2
        have split1 : z = c.id ∨
            ∃ x, x ∈ collect_project_subtree all fuel (some c.id) ∧ x.id = z := by
          simpa using hz
        have split2 : z = c2.id ∨
            ∃ x, x ∈ collect_project_subtree all fuel (some c2.id) ∧ x.id = z := by
          simpa using hz2
        rcases split1 with h1 | ⟨x, hx, hxz⟩
        · rcases split2 with h2 | ⟨y, hy, hyz⟩
          · exact hne (List.inj_on_of_nodup_map hids hcall hc2all
              (h1.symm.trans h2))
          · have hyall : y ∈ all := collect_subset all fuel (some c2.id) y hy
            have hyc : y = c := List.inj_on_of_nodup_map hids hyall hcall
              (hyz.trans h1)
            subst hyc
            rcases collect_descends all fuel (some c2.id) y hy with ⟨n, _, hd⟩
            have hup : descends all (n + 1) k y :=
              descends_top all c2 k hc2all hc2k n y hd
            have h0 : descends all 0 k y := hck
            exact Nat.noConfusion (descends_det all hids k hk 0 (n + 1) y h0 hup)
        · rcases split2 with h2 | ⟨y, hy, hyz⟩
          · have hxall : x ∈ all := collect_subset all fuel (some c.id) x hx
            have hxc2 : x = c2 := List.inj_on_of_nodup_map hids hxall hc2all
              (hxz.trans h2)
            subst hxc2
            rcases collect_descends all fuel (some c.id) x hx with ⟨n, _, hd⟩
            have hup : descends all (n + 1) k x :=
              descends_top all c k hcall hck n x hd
            have h0 : descends all 0 k x := hc2k
            exact Nat.noConfusion (descends_det all hids k hk 0 (n + 1) x h0 hup)
          · have hxall : x ∈ all := collect_subset all fuel (some c.id) x hx
            have hyall : y ∈ all := collect_subset all fuel (some c2.id) y hy
            have hxy : x = y := List.inj_on_of_nodup_map hids hxall hyall
              (hxz.trans hyz.symm)
            subst hxy
            rcases collect_descends all fuel (some c.id) x hx with ⟨n, _, hd⟩
            rcases collect_descends all fuel (some c2.id) x hy with ⟨m, _, hd2⟩
            have hup : descends all (n + 1) k x :=
              descends_top all c k hcall hck n x hd
            have hup2 : descends all (m + 1) k x :=
              descends_top all c2 k hc2all hc2k m x hd2
            have hnm : n + 1 = m + 1 :=
              descends_det all hids k hk (n + 1) (m + 1) x hup hup2
            have hkey : (some c.id : Option String) = some c2.id := by
              have := descends_key_det all hids n (some c.id) (some c2.id) x hd
              exact this (by rw [show n = m from Nat.succ.inj hnm] at hd ⊢; exact hd2)
            exact hne (List.inj_on_of_nodup_map hids hcall hc2all
              (Option.some.inj hkey))

/-- Folding appends is concatenation. -/
theorem foldl_append_form {α β : Type} {h : β → List α} :
    ∀ (l : List β) (init : List α),
      l.foldl (fun acc b => acc ++ h b) init = init ++ l.flatMap h := by
  intro l
  induction l with
  | nil => intro init; simp
  | cons b rest ih =>
      intro init
      rw [List.foldl_cons, List.flatMap_cons, ih, List.append_assoc]

/-- One workspace iteration of `sort_projects` as a standalone list. -/
def ws_block (folders : List Folder) (source : List Project)
    (ws : Workspace) : List Project :=
  if (List.filter (fun p => p.workspace_id == some ws.id) source).isEmpty then []
  else
    collect_project_subtree
        (List.filter (fun p => p.folder_id == none)
          (List.filter (fun p => p.workspace_id == some ws.id) source))
        ((List.filter (fun p => p.folder_id == none)
            (List.filter (fun p => p.workspace_id == some ws.id) source)).length + 1)
        none
      ++ (List.insertionSort folderLe
            (List.filter (fun f => f.workspace_id == ws.id) folders)).flatMap
          (fun f => collect_project_subtree
            (List.filter (fun p => p.folder_id == some f.id)
              (List.filter (fun p => p.workspace_id == some ws.id) source))
            ((List.filter (fun p => p.folder_id == some f.id)
                (List.filter (fun p => p.workspace_id == some ws.id) source)).length + 1)
            none)

/-- The project list `sort_projects` produces, as a function of the
folders, workspaces and source list. -/
def sorted_projects (folders : List Folder) (wss : List Workspace)
    (source : List Project) : List Project :=
  let ordered :=
    collect_project_subtree (List.filter (fun p => p.workspace_id == none) source)
        ((List.filter (fun p => p.workspace_id == none) source).length + 1) none
      ++ wss.flatMap (ws_block folders source)
  ordered ++ List.filter (fun p => !(ordered.any (fun q => q.id == p.id))) source

/-- The workspace fold of `sort_projects` is a concatenation of blocks. -/
theorem ws_fold_eq (folders : List Folder) (source : List Project) :
    ∀ (wss : List Workspace) (init : List Project),
      wss.foldl (fun acc ws =>
        if (List.filter (fun p => p.workspace_id == some ws.id) source).isEmpty = true
        then acc
        else
          List.foldl (fun acc f =>
            acc ++ collect_project_subtree
              (List.filter (fun p => p.folder_id == some f.id)
                (List.filter (fun p => p.workspace_id == some ws.id) source))
              ((List.filter (fun p => p.folder_id == some f.id)
                  (List.filter (fun p => p.workspace_id == some ws.id) source)).length + 1)
              none)
            (acc ++ collect_project_subtree
              (List.filter (fun p => p.folder_id == none)
                (List.filter (fun p => p.workspace_id == some ws.id) source))
              ((List.filter (fun p => p.folder_id == none)
                  (List.filter (fun p => p.workspace_id == some ws.id) source)).length + 1)
              none)
            (List.insertionSort folderLe
              (List.filter (fun f => f.workspace_id == ws.id) folders))) init
      = init ++ wss.flatMap (ws_block folders source) := by
  intro wss
  induction wss with
  | nil => intro init; simp
  | cons ws rest ih =>
      intro init
      rw [List.foldl_cons, List.flatMap_cons]
      by_cases he :
          (List.filter (fun p => p.workspace_id == some ws.id) source).isEmpty = true
      · rw [if_pos he, ih]
        unfold ws_block
        rw [if_pos he, List.nil_append]
      · rw [if_neg he, foldl_append_form, ih]
        unfold ws_block
        rw [if_neg he]
        simp [List.append_assoc]

/-- `sort_projects` in closed form. -/
theorem sort_projects_decomp (s : AppState) :
    (sort_projects s).projects =
      sorted_projects s.folders s.workspaces s.projects := by
  unfold sort_projects sorted_projects
  dsimp only
  rw [ws_fold_eq]

end Ratatoist
